import Mathlib

/-!
Verification of the ClawRouter smart LLM routing proxy core.

This file is a shallow embedding, in Lean 4, of the parts of the source
relevant to the frozen claims: model alias resolution (src/models.ts), the
rule-based classifier (src/router/rules.ts), the model selector
(src/router/selector.ts), upstream provider-error classification and the
fallback candidate list (src/proxy.ts), the request deduplicator
(src/dedup.ts), the response cache (src/response-cache.ts), payment headers
(src/x402.ts) and the balance monitor (src/balance.ts).

Modelling conventions:
  - JavaScript strings are Lean `String`s; `toLowerCase` is modelled as an
    ASCII case fold (all keys, keywords and header names involved are ASCII).
  - JavaScript numbers used for scores, prices and thresholds are modelled
    as `Rat` (they are all small decimal literals combined by +, *, min, max
    and comparisons); `Math.exp`-based confidence values are modelled in `Real`.
  - `Map`s are modelled as association lists or as functions, depending on
    which operations the source uses.
  - JSON values are a `Json` inductive; a request body is `RawBody`: either a
    parsed JSON value (`JSON.parse` succeeded) or the raw bytes.
-/

/-! ## Generic character and string utilities -/

/-- ASCII lower-casing of one character (models `String.prototype.toLowerCase`
on the ASCII range, which covers every key and keyword the source uses). -/
def lcChar (c : Char) : Char :=
  if 65 ≤ c.toNat ∧ c.toNat ≤ 90 then Char.ofNat (c.toNat + 32) else c

/-- Whitespace as recognised by `String.prototype.trim` (ASCII part). -/
def isWsChar (c : Char) : Bool :=
  c = ' ' ∨ c = '\t' ∨ c = '\n' ∨ c = '\r' ∨ c = Char.ofNat 11 ∨ c = Char.ofNat 12

/-- Trim a character list on both ends. -/
def trimChars (cs : List Char) : List Char :=
  ((cs.dropWhile isWsChar).reverse.dropWhile isWsChar).reverse

/-- `s.trim()` -/
def trimStr (s : String) : String := ⟨trimChars s.data⟩

/-- `s.toLowerCase()` (ASCII fold) -/
def lowerStr (s : String) : String := ⟨s.data.map lcChar⟩

/-- `s.startsWith(p)` -/
def strStarts (s p : String) : Bool := p.data.isPrefixOf s.data

/-- `s.slice(n)` -/
def strDropN (s : String) (n : Nat) : String := ⟨s.data.drop n⟩

/-- Occurrence of `needle` as a contiguous run inside `hay`
(models `haystack.includes(needle)`). -/
def listInfix (needle : List Char) : List Char → Bool
  | [] => needle.isPrefixOf []
  | c :: t => needle.isPrefixOf (c :: t) || listInfix needle t

/-- `haystack.includes(needle)` -/
def containsSubstr (haystack needle : String) : Bool :=
  listInfix needle.data haystack.data

theorem toNat_ofNat_valid (n : Nat) (h : n < 55296) : (Char.ofNat n).toNat = n := by
  have hvalid : n.isValidChar := Or.inl h
  rw [Char.ofNat, dif_pos hvalid]
  simp [Char.ofNatAux, Char.toNat, UInt32.ofNat', UInt32.toNat]

theorem lcChar_lcChar (c : Char) : lcChar (lcChar c) = lcChar c := by
  unfold lcChar
  by_cases h : 65 ≤ c.toNat ∧ c.toNat ≤ 90
  · rw [if_pos h]
    have hval : (Char.ofNat (c.toNat + 32)).toNat = c.toNat + 32 :=
      toNat_ofNat_valid _ (by omega)
    rw [if_neg]
    rw [hval]
    omega
  · rw [if_neg h, if_neg h]

/-! ## src/models.ts : model alias table and alias resolution -/

/-- `MODEL_ALIASES` from src/models.ts, in declaration order. -/
def MODEL_ALIASES : List (String × String) := [
  ("claude", "anthropic/claude-sonnet-4.6"),
  ("sonnet", "anthropic/claude-sonnet-4.6"),
  ("sonnet-4", "anthropic/claude-sonnet-4.6"),
  ("sonnet-4.6", "anthropic/claude-sonnet-4.6"),
  ("sonnet-4-6", "anthropic/claude-sonnet-4.6"),
  ("opus", "anthropic/claude-opus-4.6"),
  ("opus-4", "anthropic/claude-opus-4.6"),
  ("opus-4.6", "anthropic/claude-opus-4.6"),
  ("opus-4-6", "anthropic/claude-opus-4.6"),
  ("haiku", "anthropic/claude-haiku-4.5"),
  ("anthropic/sonnet", "anthropic/claude-sonnet-4.6"),
  ("anthropic/opus", "anthropic/claude-opus-4.6"),
  ("anthropic/haiku", "anthropic/claude-haiku-4.5"),
  ("anthropic/claude", "anthropic/claude-sonnet-4.6"),
  ("anthropic/claude-sonnet-4", "anthropic/claude-sonnet-4.6"),
  ("anthropic/claude-sonnet-4-6", "anthropic/claude-sonnet-4.6"),
  ("anthropic/claude-opus-4", "anthropic/claude-opus-4.6"),
  ("anthropic/claude-opus-4-6", "anthropic/claude-opus-4.6"),
  ("anthropic/claude-opus-4.5", "anthropic/claude-opus-4.6"),
  ("anthropic/claude-haiku-4", "anthropic/claude-haiku-4.5"),
  ("anthropic/claude-haiku-4-5", "anthropic/claude-haiku-4.5"),
  ("gpt", "openai/gpt-4o"),
  ("gpt4", "openai/gpt-4o"),
  ("gpt5", "openai/gpt-5.2"),
  ("codex", "openai/gpt-5.2-codex"),
  ("mini", "openai/gpt-4o-mini"),
  ("o1", "openai/o1"),
  ("o3", "openai/o3"),
  ("deepseek", "deepseek/deepseek-chat"),
  ("reasoner", "deepseek/deepseek-reasoner"),
  ("kimi", "moonshot/kimi-k2.5"),
  ("gemini", "google/gemini-2.5-pro"),
  ("flash", "google/gemini-2.5-flash"),
  ("grok", "xai/grok-3"),
  ("grok-fast", "xai/grok-4-fast-reasoning"),
  ("grok-code", "xai/grok-code-fast-1"),
  ("nvidia", "nvidia/gpt-oss-120b"),
  ("gpt-120b", "nvidia/gpt-oss-120b"),
  ("minimax", "minimax/minimax-m2.5"),
  ("auto-router", "auto"),
  ("router", "auto")]

/-- `model.trim().toLowerCase()` -/
def normalizeModel (model : String) : String := lowerStr (trimStr model)

/-- `resolveModelAlias` from src/models.ts. -/
def resolveModelAlias (model : String) : String :=
  let normalized := normalizeModel model
  match MODEL_ALIASES.lookup normalized with
  | some resolved => resolved
  | none =>
    if strStarts normalized "blockrun/" then
      let rest := strDropN normalized 9
      match MODEL_ALIASES.lookup rest with
      | some r => r
      | none => rest
    else model

theorem lookup_mem_values {l : List (String × String)} {k v : String}
    (h : l.lookup k = some v) : v ∈ l.map Prod.snd := by
  induction l with
  | nil => simp [List.lookup] at h
  | cons kv rest ih =>
    obtain ⟨a, b⟩ := kv
    rw [List.lookup] at h
    rw [List.map_cons]
    cases hk : (k == a) with
    | true =>
      rw [hk] at h
      injection h with h
      rw [← h]
      exact List.mem_cons_self _ _
    | false =>
      rw [hk] at h
      exact List.mem_cons_of_mem _ (ih h)

theorem alias_values_fixed {v : String} (h : v ∈ MODEL_ALIASES.map Prod.snd) :
    resolveModelAlias v = v := by
  have hall : (MODEL_ALIASES.map Prod.snd).all
      (fun v => resolveModelAlias v == v) = true := by decide
  rw [List.all_eq_true] at hall
  exact beq_iff_eq.mp (hall v h)

theorem resolve_eq_of_alias {x r : String}
    (h : MODEL_ALIASES.lookup (normalizeModel x) = some r) :
    resolveModelAlias x = r := by
  simp only [resolveModelAlias, h]

theorem resolve_eq_of_rest_alias {x r : String}
    (h1 : MODEL_ALIASES.lookup (normalizeModel x) = none)
    (hs : strStarts (normalizeModel x) "blockrun/" = true)
    (h2 : MODEL_ALIASES.lookup (strDropN (normalizeModel x) 9) = some r) :
    resolveModelAlias x = r := by
  simp only [resolveModelAlias, h1, hs, if_true, h2]

theorem resolve_eq_of_rest {x : String}
    (h1 : MODEL_ALIASES.lookup (normalizeModel x) = none)
    (hs : strStarts (normalizeModel x) "blockrun/" = true)
    (h2 : MODEL_ALIASES.lookup (strDropN (normalizeModel x) 9) = none) :
    resolveModelAlias x = strDropN (normalizeModel x) 9 := by
  simp only [resolveModelAlias, h1, hs, if_true, h2]

theorem resolve_eq_self {x : String}
    (h1 : MODEL_ALIASES.lookup (normalizeModel x) = none)
    (hs : strStarts (normalizeModel x) "blockrun/" = false) :
    resolveModelAlias x = x := by
  simp only [resolveModelAlias, h1, hs]
  simp

theorem lowerStr_normalize_drop (x : String) (k : Nat) :
    lowerStr (strDropN (normalizeModel x) k) = strDropN (normalizeModel x) k := by
  unfold normalizeModel lowerStr strDropN trimStr
  congr 1
  simp only [List.map_drop, List.map_map]
  congr 1
  exact List.map_congr_left (fun c _ => lcChar_lcChar c)

/-- Claim C6 (amended): model alias resolution is a fixed point for every
input except those carrying a nested brand marker: if the normalized input,
when it begins with "blockrun/", continues with a remainder that is either a
known alias or a string that neither begins with "blockrun/" again nor with
whitespace, then resolveModelAlias (resolveModelAlias x) = resolveModelAlias x. -/
theorem resolveModelAlias_fixed_point (x : String)
    (hx : strStarts (normalizeModel x) "blockrun/" = true →
      (MODEL_ALIASES.lookup (strDropN (normalizeModel x) 9)).isSome = true ∨
      (strStarts (strDropN (normalizeModel x) 9) "blockrun/" = false ∧
        trimStr (strDropN (normalizeModel x) 9) = strDropN (normalizeModel x) 9)) :
    resolveModelAlias (resolveModelAlias x) = resolveModelAlias x := by
  cases hl : MODEL_ALIASES.lookup (normalizeModel x) with
  | some r =>
    rw [resolve_eq_of_alias hl]
    exact alias_values_fixed (lookup_mem_values hl)
  | none =>
    cases hs : strStarts (normalizeModel x) "blockrun/" with
    | false =>
      rw [resolve_eq_self hl hs]
      exact resolve_eq_self hl hs
    | true =>
      cases hl2 : MODEL_ALIASES.lookup (strDropN (normalizeModel x) 9) with
      | some r =>
        rw [resolve_eq_of_rest_alias hl hs hl2]
        exact alias_values_fixed (lookup_mem_values hl2)
      | none =>
        rcases hx hs with hsome | ⟨hs2, htrim⟩
        · rw [hl2] at hsome; simp at hsome
        · rw [resolve_eq_of_rest hl hs hl2]
          have hnorm : normalizeModel (strDropN (normalizeModel x) 9)
              = strDropN (normalizeModel x) 9 := by
            rw [show normalizeModel (strDropN (normalizeModel x) 9)
               = lowerStr (trimStr (strDropN (normalizeModel x) 9)) from rfl, htrim]
            exact lowerStr_normalize_drop x 9
          have hl3 : MODEL_ALIASES.lookup
              (normalizeModel (strDropN (normalizeModel x) 9)) = none := by
            rw [hnorm]; exact hl2
          have hs3 : strStarts
              (normalizeModel (strDropN (normalizeModel x) 9)) "blockrun/" = false := by
            rw [hnorm]; exact hs2
          exact resolve_eq_self hl3 hs3

/-- Claim C6 counterexample: the input "blockrun/blockrun/x" resolves to
"blockrun/x", which resolves further to "x", so resolution is not a fixed
point on this input. -/
theorem resolveModelAlias_not_idempotent :
    ¬ (resolveModelAlias (resolveModelAlias "blockrun/blockrun/x")
        = resolveModelAlias "blockrun/blockrun/x") := by
  have h1 : resolveModelAlias "blockrun/blockrun/x" = "blockrun/x" := by decide
  rw [h1]
  decide

/-- Witness for the amended claim C6 at the concrete input
"blockrun/auto-router" (whose remainder "auto-router" is a known alias). -/
theorem resolveModelAlias_fixed_point_witness :
    (strStarts (normalizeModel "blockrun/auto-router") "blockrun/" = true →
      (MODEL_ALIASES.lookup (strDropN (normalizeModel "blockrun/auto-router") 9)).isSome = true ∨
      (strStarts (strDropN (normalizeModel "blockrun/auto-router") 9) "blockrun/" = false ∧
        trimStr (strDropN (normalizeModel "blockrun/auto-router") 9)
          = strDropN (normalizeModel "blockrun/auto-router") 9)) ∧
    resolveModelAlias (resolveModelAlias "blockrun/auto-router")
      = resolveModelAlias "blockrun/auto-router" :=
  ⟨fun _ => Or.inl (by decide), resolveModelAlias_fixed_point "blockrun/auto-router"
    (fun _ => Or.inl (by decide))⟩

/-! ## Regular-expression fragments used by the proxy

The source tests bodies against case-insensitive JS regexes that are all
sequences of literal runs joined by a dot-quantifier: `.*` (greedy any run,
not crossing a line terminator) or `.?` (at most one non-terminator char),
plus single character classes.  `Rx` models one element of such a sequence;
matching is exhaustive backtracking, which coincides with
`RegExp.prototype.test` for these patterns. -/

inductive Rx where
  | lit : List Char → Rx
  | star : Rx
  | opt : Rx
  | cls : (Char → Bool) → Rx

/-- Characters matched by `.` in a JS regex without the `s` flag. -/
def isDotChar (c : Char) : Bool :=
  !(c = '\n' ∨ c = '\r' ∨ c = Char.ofNat 8232 ∨ c = Char.ofNat 8233)

/-- Match a pattern sequence at the start of `cs` (remainder unconstrained),
with explicit fuel for structural recursion.  Every recursive call strictly
decreases `ps.length + cs.length`, so any fuel above that bound gives the
backtracking matcher's exact semantics. -/
def matchAtF : Nat → List Rx → List Char → Bool
  | _, [], _ => true
  | 0, _ :: _, _ => false
  | f + 1, .lit w :: ps, cs => w.isPrefixOf cs && matchAtF f ps (cs.drop w.length)
  | f + 1, .cls g :: ps, cs =>
      match cs with
      | [] => false
      | c :: cs1 => g c && matchAtF f ps cs1
  | f + 1, .opt :: ps, cs =>
      matchAtF f ps cs ||
        (match cs with
         | [] => false
         | c :: cs1 => isDotChar c && matchAtF f ps cs1)
  | f + 1, .star :: ps, cs =>
      matchAtF f ps cs ||
        (match cs with
         | [] => false
         | c :: cs1 => isDotChar c && matchAtF f (.star :: ps) cs1)

/-- Match a pattern sequence at the start of `cs`. -/
def matchAt (ps : List Rx) (cs : List Char) : Bool :=
  matchAtF (ps.length + cs.length + 1) ps cs

/-- Unanchored search (models `RegExp.prototype.test`). -/
def rxSearch (ps : List Rx) : List Char → Bool
  | [] => matchAt ps []
  | c :: t => matchAt ps (c :: t) || rxSearch ps t

/-- Case-insensitive test of a lowercase-literal pattern against a string
(models `/…/i.test(s)`). -/
def testPatternI (ps : List Rx) (s : String) : Bool := rxSearch ps (s.data.map lcChar)

/-- Literal pattern element. -/
def litR (s : String) : Rx := .lit s.data

/-! ## src/proxy.ts : provider-error classification -/

/-- `PROVIDER_ERROR_PATTERNS` from src/proxy.ts (16 case-insensitive regexes). -/
def PROVIDER_ERROR_PATTERNS : List (List Rx) := [
  [litR "billing"],
  [litR "insufficient", .star, litR "balance"],
  [litR "credits"],
  [litR "quota", .star, litR "exceeded"],
  [litR "rate", .star, litR "limit"],
  [litR "model", .star, litR "unavailable"],
  [litR "model", .star, litR "not", .star, litR "available"],
  [litR "service", .star, litR "unavailable"],
  [litR "capacity"],
  [litR "overloaded"],
  [litR "temporarily", .star, litR "unavailable"],
  [litR "api", .star, litR "key", .star, litR "invalid"],
  [litR "authentication", .star, litR "failed"],
  [litR "request too large"],
  [litR "request", .star, litR "size", .star, litR "exceeds"],
  [litR "payload too large"]]

/-- `FALLBACK_STATUS_CODES` from src/proxy.ts. -/
def FALLBACK_STATUS_CODES : List Nat := [400, 401, 402, 403, 413, 429, 500, 502, 503, 504]

/-- `isProviderError` from src/proxy.ts. -/
def isProviderError (status : Nat) (body : String) : Bool :=
  if !(FALLBACK_STATUS_CODES.contains status) then false
  else if 500 ≤ status then true
  else PROVIDER_ERROR_PATTERNS.any (fun p => testPatternI p body)

/-- The provider-error regex list as the claim words it (12 patterns, with
bare `quota` and `rate.?limit`); used only to state the claim. -/
def CLAIM_PROVIDER_PATTERNS : List (List Rx) := [
  [litR "billing"],
  [litR "insufficient", .star, litR "balance"],
  [litR "credits"],
  [litR "quota"],
  [litR "rate", .opt, litR "limit"],
  [litR "model", .star, litR "unavailable"],
  [litR "service", .star, litR "unavailable"],
  [litR "capacity"],
  [litR "overloaded"],
  [litR "temporarily", .star, litR "unavailable"],
  [litR "request too large"],
  [litR "payload too large"]]

/-- Claim C4 as stated: provider error exactly when the status is listed OR
the body matches one of the listed regexes. -/
def claimIsProviderError (status : Nat) (body : String) : Prop :=
  status ∈ FALLBACK_STATUS_CODES ∨ ∃ p ∈ CLAIM_PROVIDER_PATTERNS, testPatternI p body = true

/-- Claim C4 counterexample: a 400 response with an empty body is NOT treated
as a provider error by the code (a listed 4xx status alone is not enough; the
body must also match a pattern), while the claim's disjunction says it is. -/
theorem isProviderError_claim_false :
    ¬ (isProviderError 400 "" = true ↔ claimIsProviderError 400 "") := by
  intro h
  have h400 : claimIsProviderError 400 "" := Or.inl (by decide)
  have : isProviderError 400 "" = true := h.mpr h400
  exact absurd this (by decide)

/-- Claim C4 (amended): a failed attempt is classified as a provider error
exactly when its status is one of 400/401/402/403/413/429/500/502/503/504
AND in addition, for statuses below 500, the body matches one of the sixteen
provider-error regexes of the source (billing, insufficient.*balance,
credits, quota.*exceeded, rate.*limit, model.*unavailable,
model.*not.*available, service.*unavailable, capacity, overloaded,
temporarily.*unavailable, api.*key.*invalid, authentication.*failed,
request too large, request.*size.*exceeds, payload too large); statuses of
500 and above that are listed are provider errors regardless of body. -/
theorem isProviderError_iff (status : Nat) (body : String) :
    isProviderError status body = true ↔
      status ∈ FALLBACK_STATUS_CODES ∧
        (500 ≤ status ∨ ∃ p ∈ PROVIDER_ERROR_PATTERNS, testPatternI p body = true) := by
  unfold isProviderError
  by_cases hc : status ∈ FALLBACK_STATUS_CODES
  · have hc' : FALLBACK_STATUS_CODES.contains status = true := List.elem_eq_true_of_mem hc
    rw [hc']
    simp only [Bool.not_true, Bool.false_eq_true, if_false]
    by_cases h5 : 500 ≤ status
    · simp [h5, hc]
    · simp only [if_neg h5]
      rw [List.any_eq_true]
      constructor
      · rintro ⟨p, hp, ht⟩
        exact ⟨hc, Or.inr ⟨p, hp, ht⟩⟩
      · rintro ⟨-, h | ⟨p, hp, ht⟩⟩
        · exact absurd h h5
        · exact ⟨p, hp, ht⟩
  · have hc' : FALLBACK_STATUS_CODES.contains status = false := by
      rw [← Bool.not_eq_true]
      intro hcon
      exact hc (List.elem_iff.mp hcon)
    rw [hc']
    simp [hc]

/-! ## src/router/selector.ts : fallback chains, and the proxy candidate list -/

/-- Complexity tiers (S < M < C < R). -/
inductive Tier where
  | SIMPLE
  | MEDIUM
  | COMPLEX
  | REASONING
deriving DecidableEq, Repr

/-- One row of a tier table: primary model plus fallbacks, in declared order. -/
structure TierConfig where
  primary : String
  fallback : List String
deriving DecidableEq, Repr

/-- `getFallbackChain` from src/router/selector.ts. -/
def getFallbackChain (tier : Tier) (tierConfigs : Tier → TierConfig) : List String :=
  (tierConfigs tier).primary :: (tierConfigs tier).fallback

/-- The context-window filter inside `getFallbackChainFiltered`: a model with
a declared context window passes iff the window is at least `1.1 ×` the
estimated total tokens; a model with no declared window always passes. -/
def contextFilter (chain : List String) (estimatedTotalTokens : ℚ)
    (getContextWindow : String → Option ℚ) : List String :=
  chain.filter (fun modelId =>
    match getContextWindow modelId with
    | none => true
    | some contextWindow => decide (estimatedTotalTokens * (11 / 10) ≤ contextWindow))

/-- `getFallbackChainFiltered` from src/router/selector.ts. -/
def getFallbackChainFiltered (tier : Tier) (tierConfigs : Tier → TierConfig)
    (estimatedTotalTokens : ℚ) (getContextWindow : String → Option ℚ) : List String :=
  let fullChain := getFallbackChain tier tierConfigs
  let filtered := contextFilter fullChain estimatedTotalTokens getContextWindow
  if filtered = [] then fullChain else filtered

/-- `MAX_FALLBACK_ATTEMPTS` from src/proxy.ts. -/
def MAX_FALLBACK_ATTEMPTS : Nat := 5

/-- `prioritizeNonRateLimited` from src/proxy.ts, with the current
rate-limit map abstracted as a predicate. -/
def prioritizeNonRateLimited (isRateLimited : String → Bool)
    (models : List String) : List String :=
  models.filter (fun m => !(isRateLimited m)) ++ models.filter isRateLimited

/-- The per-request candidate list (`modelsToTry`) computed in
`proxyRequest` (src/proxy.ts): with a routing decision, the context-filtered
chain is truncated to `MAX_FALLBACK_ATTEMPTS` and re-ordered so rate-limited
models go last; without one, at most the requested model plus the free model. -/
def modelsToTry (routedTier : Option Tier) (tierConfigs : Tier → TierConfig)
    (estimatedTotalTokens : ℚ) (getContextWindow : String → Option ℚ)
    (isRateLimited : String → Bool) (modelId : Option String)
    (freeModel : String) : List String :=
  match routedTier with
  | some tier =>
      prioritizeNonRateLimited isRateLimited
        ((getFallbackChainFiltered tier tierConfigs estimatedTotalTokens
            getContextWindow).take MAX_FALLBACK_ATTEMPTS)
  | none =>
      match modelId with
      | some m => if m ≠ freeModel then [m, freeModel] else [m]
      | none => []

theorem prioritize_length (isRateLimited : String → Bool) (models : List String) :
    (prioritizeNonRateLimited isRateLimited models).length = models.length := by
  unfold prioritizeNonRateLimited
  rw [List.length_append]
  induction models with
  | nil => rfl
  | cons m t ih =>
    by_cases h : isRateLimited m <;>
      simp [List.filter_cons, h, ← ih, Nat.succ_add]
    omega

/-- Claim C3 as stated, first conjunct: whenever the filtered chain is
non-empty, every returned model HAS a declared context window and it is at
least `1.1 ×` the estimate.  (Stated from the claim's words.) -/
def claimFilteredChainWindows (tier : Tier) (tierConfigs : Tier → TierConfig)
    (estimatedTotalTokens : ℚ) (getContextWindow : String → Option ℚ) : Prop :=
  contextFilter (getFallbackChain tier tierConfigs) estimatedTotalTokens getContextWindow ≠ [] →
    ∀ m ∈ getFallbackChainFiltered tier tierConfigs estimatedTotalTokens getContextWindow,
      ∃ cw, getContextWindow m = some cw ∧ estimatedTotalTokens * (11 / 10) ≤ cw

/-- Claim C3 counterexample: with a one-model chain whose context window is
NOT declared (the lookup returns none), the model passes the filter, the
filtered chain is non-empty, and the returned model has no declared context
window at all — refuting "every returned model has declared context window
≥ 1.1 × estimate". -/
theorem claimFilteredChainWindows_false :
    ¬ claimFilteredChainWindows Tier.SIMPLE (fun _ => ⟨"m", []⟩) 1000 (fun _ => none) := by
  intro h
  have hne : contextFilter (getFallbackChain Tier.SIMPLE (fun _ => ⟨"m", []⟩)) 1000
      (fun _ => none) ≠ [] := by decide
  have hm : "m" ∈ getFallbackChainFiltered Tier.SIMPLE (fun _ => ⟨"m", []⟩) 1000
      (fun _ => none) := by decide
  obtain ⟨cw, hcw, -⟩ := h hne "m" hm
  exact absurd hcw (by simp)

/-- Claim C3 (amended): (1) when the context filter keeps at least one model,
`getFallbackChainFiltered` returns exactly the filtered chain, and every
returned model whose context window IS declared satisfies
`contextWindow ≥ 1.1 × estimatedTotalTokens` (models with no declared window
pass the filter unconditionally); (2) when filtering would empty the list the
full unfiltered chain is returned; (3) the proxy's per-request candidate list
never contains more than `MAX_FALLBACK_ATTEMPTS = 5` models. -/
theorem fallbackChain_filtered_spec (routedTier : Option Tier) (tier : Tier)
    (tierConfigs : Tier → TierConfig) (estimatedTotalTokens : ℚ)
    (getContextWindow : String → Option ℚ) (isRateLimited : String → Bool)
    (modelId : Option String) (freeModel : String) :
    (getFallbackChainFiltered tier tierConfigs estimatedTotalTokens getContextWindow =
      if contextFilter (getFallbackChain tier tierConfigs) estimatedTotalTokens
          getContextWindow = []
      then getFallbackChain tier tierConfigs
      else contextFilter (getFallbackChain tier tierConfigs) estimatedTotalTokens
          getContextWindow) ∧
    (∀ m ∈ contextFilter (getFallbackChain tier tierConfigs) estimatedTotalTokens
        getContextWindow,
      ∀ cw, getContextWindow m = some cw → estimatedTotalTokens * (11 / 10) ≤ cw) ∧
    (modelsToTry routedTier tierConfigs estimatedTotalTokens getContextWindow
        isRateLimited modelId freeModel).length ≤ 5 := by
  refine ⟨rfl, ?_, ?_⟩
  · intro m hm cw hcw
    rw [contextFilter, List.mem_filter] at hm
    have hp := hm.2
    rw [hcw] at hp
    exact of_decide_eq_true hp
  · cases routedTier with
    | some t =>
      rw [modelsToTry, prioritize_length]
      calc ((getFallbackChainFiltered t tierConfigs estimatedTotalTokens
              getContextWindow).take MAX_FALLBACK_ATTEMPTS).length
          ≤ MAX_FALLBACK_ATTEMPTS := by
            rw [List.length_take]
            exact Nat.min_le_left _ _
        _ ≤ 5 := Nat.le_refl _
    | none =>
      cases modelId with
      | some m =>
        rw [modelsToTry]
        by_cases h : m ≠ freeModel <;> simp [h]
      | none => simp [modelsToTry]

/-- Witness for the amended claim C3 at concrete inputs: a declared window of
2000 with an estimate of 1000 passes the filter and indeed satisfies
`1000 * 1.1 ≤ 2000`. -/
theorem fallbackChain_filtered_spec_witness :
    ("m" ∈ contextFilter (getFallbackChain Tier.SIMPLE (fun _ => ⟨"m", []⟩)) 1000
        (fun _ => some 2000)) ∧
    ((1000 : ℚ) * (11 / 10) ≤ 2000) := by
  have hmem : "m" ∈ contextFilter (getFallbackChain Tier.SIMPLE (fun _ => ⟨"m", []⟩)) 1000
      (fun _ => some 2000) := by
    have hineq : ((1000 : ℚ) * (11 / 10) ≤ 2000) := by norm_num
    simp [contextFilter, getFallbackChain, hineq]
  exact ⟨hmem,
    (fallbackChain_filtered_spec none Tier.SIMPLE (fun _ => ⟨"m", []⟩) 1000
        (fun _ => some 2000) (fun _ => false) none "f").2.1 "m" hmem 2000 rfl⟩

/-! ## src/balance.ts : the balance monitor -/

/-- `CACHE_TTL_MS` from src/balance.ts. -/
def CACHE_TTL_MS : ℤ := 30000

/-- Mutable state of a `BalanceMonitor`: the cached USDC balance in smallest
units (`null` when not yet fetched) and the cache timestamp. -/
structure BalanceState where
  cachedBalance : Option ℤ
  cachedAt : ℤ
deriving DecidableEq, Repr

/-- Initial state (`cachedBalance = null`, `cachedAt = 0`). -/
def BalanceState.init : BalanceState := ⟨none, 0⟩

/-- The operations on a `BalanceMonitor` that touch the cached balance.
`checkBalance` and `refresh` carry the current time and the value an RPC
read would return at that moment. -/
inductive BalanceOp where
  | checkBalance (now fetched : ℤ)
  | deductEstimated (amountMicros : ℤ)
  | invalidate
  | refresh (now fetched : ℤ)
deriving DecidableEq, Repr

/-- One step of the monitor (state effect of each method in src/balance.ts):
`checkBalance` keeps a fresh cache, otherwise stores the fetched value;
`deductEstimated` subtracts only when the cache is non-null and at least the
amount; `invalidate` clears; `refresh` is invalidate-then-checkBalance. -/
def balanceStep (s : BalanceState) : BalanceOp → BalanceState
  | .checkBalance now fetched =>
      if s.cachedBalance ≠ none ∧ now - s.cachedAt < CACHE_TTL_MS then s
      else ⟨some fetched, now⟩
  | .deductEstimated amountMicros =>
      match s.cachedBalance with
      | some b => if amountMicros ≤ b then ⟨some (b - amountMicros), s.cachedAt⟩ else s
      | none => s
  | .invalidate => ⟨none, 0⟩
  | .refresh now fetched => ⟨some fetched, now⟩

/-- Run a sequence of operations from a state. -/
def balanceRun (s : BalanceState) (ops : List BalanceOp) : BalanceState :=
  ops.foldl balanceStep s

/-- An operation's RPC read (if any) returns a non-negative value (on chain
`balanceOf` is a uint256). -/
def balanceOpNonneg : BalanceOp → Prop
  | .checkBalance _ fetched => 0 ≤ fetched
  | .refresh _ fetched => 0 ≤ fetched
  | _ => True

instance (op : BalanceOp) : Decidable (balanceOpNonneg op) := by
  cases op <;> unfold balanceOpNonneg <;> infer_instance

/-- The cached balance is non-negative whenever it is set. -/
def balanceInv (s : BalanceState) : Prop :=
  ∀ b, s.cachedBalance = some b → 0 ≤ b

theorem balanceStep_inv {s : BalanceState} (op : BalanceOp)
    (hs : balanceInv s) (hop : balanceOpNonneg op) : balanceInv (balanceStep s op) := by
  cases op with
  | checkBalance now fetched =>
    rw [balanceStep]
    split
    · exact hs
    · intro b hb
      injection hb with hb
      rw [← hb]
      exact hop
  | deductEstimated amountMicros =>
    rw [balanceStep]
    cases hc : s.cachedBalance with
    | none => exact hs
    | some b0 =>
      by_cases hle : amountMicros ≤ b0
      · simp only [hle, if_true]
        intro b hb
        injection hb with hb
        have hb0 : 0 ≤ b0 := hs b0 hc
        omega
      · simp only [hle, if_false]
        exact hs
  | invalidate =>
    intro b hb
    simp [balanceStep] at hb
  | refresh now fetched =>
    intro b hb
    injection hb with hb
    rw [← hb]
    exact hop

theorem balanceRun_inv {s : BalanceState} (ops : List BalanceOp)
    (hs : balanceInv s) (h : ∀ op ∈ ops, balanceOpNonneg op) :
    balanceInv (balanceRun s ops) := by
  induction ops generalizing s with
  | nil => exact hs
  | cons op rest ih =>
    rw [balanceRun, List.foldl_cons]
    exact ih (balanceStep_inv op hs (h op (List.mem_cons_self _ _)))
      (fun o ho => h o (List.mem_cons_of_mem _ ho))

/-- Claim C10: the monitor's cached balance is never negative:
`deductEstimated` subtracts only when the cached balance is present and at
least the amount (and is a no-op otherwise), so from the initial state every
sequence of operations whose RPC reads return non-negative values keeps
`cachedBalance ≥ 0` whenever it is set. -/
theorem balanceMonitor_nonneg (ops : List BalanceOp)
    (h : ∀ op ∈ ops, balanceOpNonneg op) :
    balanceInv (balanceRun BalanceState.init ops) ∧
    (∀ s : BalanceState, ∀ amountMicros : ℤ,
      (s.cachedBalance = none ∨ ∀ b, s.cachedBalance = some b → b < amountMicros) →
      balanceStep s (.deductEstimated amountMicros) = s) := by
  constructor
  · have hinit : balanceInv BalanceState.init := by
      intro b hb
      simp [BalanceState.init] at hb
    exact balanceRun_inv ops hinit h
  · intro s amountMicros hno
    cases hc : s.cachedBalance with
    | none =>
      have hmatch : balanceStep s (.deductEstimated amountMicros) = s := by
        rw [balanceStep, hc]
      exact hmatch
    | some b0 =>
      rcases hno with hn | hlt
      · rw [hc] at hn
        exact absurd hn (by simp)
      · have hb : b0 < amountMicros := hlt b0 hc
        have hmatch : balanceStep s (.deductEstimated amountMicros)
            = if amountMicros ≤ b0
              then ⟨some (b0 - amountMicros), s.cachedAt⟩ else s := by
          rw [balanceStep, hc]
        rw [hmatch, if_neg (by omega)]

/-- Witness for claim C10: a concrete run (fetch 100, deduct 40, deduct 200,
invalidate, fetch 10) keeps the cached balance non-negative. -/
theorem balanceMonitor_nonneg_witness :
    (∀ op ∈ [BalanceOp.checkBalance 0 100, BalanceOp.deductEstimated 40,
        BalanceOp.deductEstimated 200, BalanceOp.invalidate,
        BalanceOp.refresh 50 10], balanceOpNonneg op) ∧
    balanceInv (balanceRun BalanceState.init
      [BalanceOp.checkBalance 0 100, BalanceOp.deductEstimated 40,
        BalanceOp.deductEstimated 200, BalanceOp.invalidate,
        BalanceOp.refresh 50 10]) :=
  ⟨by decide,
    (balanceMonitor_nonneg _ (by decide)).1⟩

/-! ## src/dedup.ts : in-flight request coalescing

The in-flight side of `RequestDeduplicator` is modelled as explicit state:
`inflight` maps a dedup key to the list of registered resolvers (one per
waiter, identified by a number), and `delivered` records, for each resolver
that has been called, the result it was resolved with.  A promise returned
by `getInflight` resolves exactly when its resolver is called. -/

/-- A completed response as stored/delivered by the deduplicator. -/
structure CompletedResult where
  status : Nat
  headers : List (String × String)
  body : String
  completedAt : ℤ
deriving DecidableEq, Repr

/-- State of the deduplicator's in-flight side. -/
structure DedupState where
  inflight : String → Option (List Nat)
  delivered : Nat → Option CompletedResult
  nextId : Nat

/-- `getInflight` from src/dedup.ts: no entry gives `undefined`; an entry
appends a fresh resolver and returns (the id of) a promise for it. -/
def getInflight (s : DedupState) (key : String) : Option Nat × DedupState :=
  match s.inflight key with
  | none => (none, s)
  | some resolvers =>
      (some s.nextId,
        { s with
          inflight := fun k =>
            if k = key then some (resolvers ++ [s.nextId]) else s.inflight k,
          nextId := s.nextId + 1 })

/-- `markInflight` from src/dedup.ts. -/
def markInflight (s : DedupState) (key : String) : DedupState :=
  { s with inflight := fun k => if k = key then some [] else s.inflight k }

/-- The 503 body `removeInflight` resolves waiters with
(`JSON.stringify` output, byte for byte). -/
def dedupErrorBody : String :=
  "\x7b\"error\":\x7b\"message\":\"Original request failed, please retry\",\"type\":\"dedup_origin_failed\"\x7d\x7d"

/-- The result a waiter receives when the originator fails. -/
def dedupOriginFailed (now : ℤ) : CompletedResult :=
  ⟨503, [("content-type", "application/json")], dedupErrorBody, now⟩

/-- `removeInflight` from src/dedup.ts: resolve every registered waiter with
the 503 `dedup_origin_failed` result and drop the in-flight entry. -/
def removeInflight (s : DedupState) (key : String) (now : ℤ) : DedupState :=
  match s.inflight key with
  | none => s
  | some resolvers =>
      { s with
        delivered := fun i =>
          if i ∈ resolvers then some (dedupOriginFailed now) else s.delivered i,
        inflight := fun k => if k = key then none else s.inflight k }

/-- `complete` from src/dedup.ts, restricted to its in-flight effect:
resolve every waiter with the result and drop the entry (the completed-cache
side is modelled with the hash in the canonicalization section). -/
def completeInflight (s : DedupState) (key : String) (result : CompletedResult) : DedupState :=
  match s.inflight key with
  | none => s
  | some resolvers =>
      { s with
        delivered := fun i =>
          if i ∈ resolvers then some result else s.delivered i,
        inflight := fun k => if k = key then none else s.inflight k }

/-- Claim C8: after `removeInflight(key)` every waiter registered for `key`
is resolved — with status 503 and the exact body
`{error:{message:"Original request failed, please retry",
type:"dedup_origin_failed"}}` — and the in-flight entry is removed, so a
later `getInflight(key)` returns `undefined`. -/
theorem removeInflight_resolves_waiters (s : DedupState) (key : String) (now : ℤ)
    (resolvers : List Nat) (h : s.inflight key = some resolvers) :
    (∀ w ∈ resolvers,
        (removeInflight s key now).delivered w = some (dedupOriginFailed now)) ∧
    (dedupOriginFailed now).status = 503 ∧
    (dedupOriginFailed now).body = dedupErrorBody ∧
    (removeInflight s key now).inflight key = none ∧
    (getInflight (removeInflight s key now) key).1 = none := by
  have hrem : removeInflight s key now =
      { s with
        delivered := fun i =>
          if i ∈ resolvers then some (dedupOriginFailed now) else s.delivered i,
        inflight := fun k => if k = key then none else s.inflight k } := by
    rw [removeInflight, h]
  refine ⟨?_, rfl, rfl, ?_, ?_⟩
  · intro w hw
    rw [hrem]
    simp [hw]
  · rw [hrem]
    simp
  · have hnone : (removeInflight s key now).inflight key = none := by
      rw [hrem]; simp
    rw [getInflight, hnone]

/-- Witness for claim C8: a concrete state with two waiters registered under
key "k"; both receive the 503 result and the entry is gone. -/
theorem removeInflight_resolves_waiters_witness :
    ((⟨fun k => if k = "k" then some [0, 1] else none, fun _ => none, 2⟩ :
        DedupState).inflight "k" = some [0, 1]) ∧
    (∀ w ∈ [0, 1],
        (removeInflight
          ⟨fun k => if k = "k" then some [0, 1] else none, fun _ => none, 2⟩
          "k" 7).delivered w = some (dedupOriginFailed 7)) :=
  ⟨rfl, (removeInflight_resolves_waiters _ "k" 7 [0, 1] rfl).1⟩

/-! ## src/x402.ts : payment headers -/

/-- A JS `Headers` object as an association list with lower-cased names.
`set` replaces the value under an existing name or appends. -/
def setHeader (headers : List (String × String)) (name value : String) :
    List (String × String) :=
  let n := lowerStr name
  if headers.any (fun kv => kv.1 == n) then
    headers.map (fun kv => if kv.1 == n then (n, value) else kv)
  else headers ++ [(n, value)]

/-- `Headers.get`. -/
def getHeader (headers : List (String × String)) (name : String) : Option String :=
  (headers.find? (fun kv => kv.1 == lowerStr name)).map Prod.snd

/-- `setPaymentHeaders` from src/x402.ts: attach the base64 payment payload
as BOTH `payment-signature` and `x-payment`. -/
def setPaymentHeaders (headers : List (String × String)) (payload : String) :
    List (String × String) :=
  setHeader (setHeader headers "payment-signature" payload) "x-payment" payload

theorem find_map_set (n : String) (v : String) (hs : List (String × String)) :
    (hs.map (fun kv => if kv.1 == n then (n, v) else kv)).find?
        (fun kv => kv.1 == n) =
      if hs.any (fun kv => kv.1 == n) then some (n, v) else none := by
  induction hs with
  | nil => rfl
  | cons kv t ih =>
    rw [List.map_cons, List.any_cons]
    by_cases h : (kv.1 == n) = true
    · have hhead := @List.find?_cons_of_pos _ (fun kv : String × String => kv.1 == n)
        (n, v) (List.map (fun kv => if kv.1 == n then (n, v) else kv) t) (by simp)
      rw [if_pos h, hhead, h, Bool.true_or, if_pos rfl]
    · have hhead := @List.find?_cons_of_neg _ (fun kv : String × String => kv.1 == n)
        kv (List.map (fun kv => if kv.1 == n then (n, v) else kv) t) h
      rw [if_neg h, hhead, ih,
        show (kv.1 == n) = false from eq_false_of_ne_true h, Bool.false_or]

theorem getHeader_setHeader_same (hs : List (String × String)) (name value : String) :
    getHeader (setHeader hs name value) name = some value := by
  unfold getHeader setHeader
  by_cases h : hs.any (fun kv => kv.1 == lowerStr name)
  · rw [if_pos h, find_map_set, if_pos h]
    rfl
  · rw [if_neg h, List.find?_append]
    have hnone : hs.find? (fun kv => kv.1 == lowerStr name) = none := by
      rw [List.find?_eq_none]
      intro kv hkv hbeq
      exact h (List.any_eq_true.mpr ⟨kv, hkv, hbeq⟩)
    rw [hnone]
    simp [List.find?]

theorem find?_map_pres {f : (String × String) → (String × String)}
    {p : (String × String) → Bool} (h1 : ∀ kv, p (f kv) = p kv)
    (h2 : ∀ kv, p kv = true → f kv = kv) :
    ∀ l : List (String × String), (l.map f).find? p = l.find? p := by
  intro l
  induction l with
  | nil => rfl
  | cons kv t ih =>
    rw [List.map_cons, List.find?, List.find?]
    cases hp : p kv with
    | true =>
      rw [show p (f kv) = true by rw [h1]; exact hp]
      rw [h2 kv hp]
    | false =>
      rw [show p (f kv) = false by rw [h1]; exact hp]
      exact ih

theorem getHeader_setHeader_other (hs : List (String × String)) (name value other : String)
    (hne : lowerStr other ≠ lowerStr name) :
    getHeader (setHeader hs name value) other = getHeader hs other := by
  unfold getHeader setHeader
  have hbne : ((lowerStr name == lowerStr other) = false) := by
    simp only [beq_eq_false_iff_ne, ne_eq]
    exact fun hcon => hne hcon.symm
  by_cases h : hs.any (fun kv => kv.1 == lowerStr name)
  · rw [if_pos h]
    congr 1
    refine find?_map_pres ?_ ?_ hs
    · intro kv
      by_cases hk : kv.1 == lowerStr name
      · simp only [if_pos hk]
        have hkeq : kv.1 = lowerStr name := eq_of_beq hk
        show (lowerStr name == lowerStr other) = (kv.1 == lowerStr other)
        rw [hkeq]
      · rw [if_neg hk]
    · intro kv hp
      have hkeq : kv.1 = lowerStr other := eq_of_beq hp
      have : (kv.1 == lowerStr name) = false := by
        simp only [beq_eq_false_iff_ne, ne_eq, hkeq]
        exact hne
      rw [if_neg (by rw [this]; exact Bool.false_ne_true)]
  · rw [if_neg h, List.find?_append]
    have hsingle : ([(lowerStr name, value)].find? (fun kv => kv.1 == lowerStr other))
        = none := by
      rw [List.find?]
      simp only [hbne]
      rfl
    rw [hsingle, Option.or_none]

/-- Claim C9: on every payment-bearing request — the 402 retry in the normal
path and the first request in the pre-auth fast path, both of which build
their header set with `setPaymentHeaders` and a single base64 payment
payload — the headers `payment-signature` and `x-payment` are both set and
carry identical byte content, namely that payload. -/
theorem paymentHeaders_identical (headers : List (String × String)) (payload : String) :
    getHeader (setPaymentHeaders headers payload) "payment-signature" = some payload ∧
    getHeader (setPaymentHeaders headers payload) "x-payment" = some payload ∧
    getHeader (setPaymentHeaders headers payload) "payment-signature" =
      getHeader (setPaymentHeaders headers payload) "x-payment" := by
  have hps : getHeader (setPaymentHeaders headers payload) "payment-signature"
      = some payload := by
    unfold setPaymentHeaders
    rw [getHeader_setHeader_other _ _ _ _ (by decide)]
    exact getHeader_setHeader_same _ _ _
  have hxp : getHeader (setPaymentHeaders headers payload) "x-payment"
      = some payload := by
    unfold setPaymentHeaders
    exact getHeader_setHeader_same _ _ _
  exact ⟨hps, hxp, by rw [hps, hxp]⟩

/-! ## src/router/rules.ts : the rule-based classifier

Scores and weights are small decimal literals in the source; they are
modelled as rationals.  Confidence goes through `Math.exp` and is modelled
in `Real`.  The result record carries the same fields as the source's
return value; the two return sites of `classifyByRules` share every field
except the tier, so the embedding hoists the branch into the `tier` field. -/

/-- One dimension's contribution: name, score, optional human signal. -/
structure DimensionScore where
  name : String
  score : ℚ
  signal : Option String
deriving DecidableEq, Repr

/-- `tokenCountThresholds`. -/
structure TokenThresholds where
  simple : Nat
  complex : Nat
deriving DecidableEq, Repr

/-- Match-count thresholds of `scoreKeywordMatch`. -/
structure KThresholds where
  low : Nat
  high : Nat
deriving DecidableEq, Repr

/-- Scores of `scoreKeywordMatch` (`none`/`low`/`high` buckets). -/
structure KScores where
  sNone : ℚ
  sLow : ℚ
  sHigh : ℚ
deriving DecidableEq, Repr

/-- The fifteen dimension weights. -/
structure DimensionWeights where
  tokenCount : ℚ
  codePresence : ℚ
  reasoningMarkers : ℚ
  technicalTerms : ℚ
  creativeMarkers : ℚ
  simpleIndicators : ℚ
  multiStepPatterns : ℚ
  questionComplexity : ℚ
  imperativeVerbs : ℚ
  constraintCount : ℚ
  outputFormat : ℚ
  referenceComplexity : ℚ
  negationComplexity : ℚ
  domainSpecificity : ℚ
  agenticTask : ℚ
deriving DecidableEq, Repr

/-- `tierBoundaries`. -/
structure TierBoundaries where
  simpleMedium : ℚ
  mediumComplex : ℚ
  complexReasoning : ℚ
deriving DecidableEq, Repr

/-- The scoring part of the routing config consumed by `classifyByRules`. -/
structure ScoringConfig where
  tokenCountThresholds : TokenThresholds
  codeKeywords : List String
  reasoningKeywords : List String
  technicalKeywords : List String
  creativeKeywords : List String
  simpleKeywords : List String
  imperativeVerbs : List String
  constraintIndicators : List String
  outputFormatKeywords : List String
  referenceKeywords : List String
  negationKeywords : List String
  domainSpecificKeywords : List String
  agenticTaskKeywords : List String
  dimensionWeights : DimensionWeights
  tierBoundaries : TierBoundaries
  confidenceSteepness : ℚ
  confidenceThreshold : ℚ

/-- `weights[d.name] ?? 0` — the source looks weights up by dimension name. -/
def dimWeight (w : DimensionWeights) (name : String) : ℚ :=
  if name = "tokenCount" then w.tokenCount
  else if name = "codePresence" then w.codePresence
  else if name = "reasoningMarkers" then w.reasoningMarkers
  else if name = "technicalTerms" then w.technicalTerms
  else if name = "creativeMarkers" then w.creativeMarkers
  else if name = "simpleIndicators" then w.simpleIndicators
  else if name = "multiStepPatterns" then w.multiStepPatterns
  else if name = "questionComplexity" then w.questionComplexity
  else if name = "imperativeVerbs" then w.imperativeVerbs
  else if name = "constraintCount" then w.constraintCount
  else if name = "outputFormat" then w.outputFormat
  else if name = "referenceComplexity" then w.referenceComplexity
  else if name = "negationComplexity" then w.negationComplexity
  else if name = "domainSpecificity" then w.domainSpecificity
  else if name = "agenticTask" then w.agenticTask
  else 0

/-- `", "`-join (for signal strings). -/
def joinComma (l : List String) : String := String.intercalate ", " l

/-- `scoreTokenCount` from src/router/rules.ts. -/
def scoreTokenCount (estimatedTokens : Nat) (thresholds : TokenThresholds) :
    DimensionScore :=
  if estimatedTokens < thresholds.simple then
    ⟨"tokenCount", -1, some ("short (" ++ toString estimatedTokens ++ " tokens)")⟩
  else if thresholds.complex < estimatedTokens then
    ⟨"tokenCount", 1, some ("long (" ++ toString estimatedTokens ++ " tokens)")⟩
  else ⟨"tokenCount", 0, none⟩

/-- `scoreKeywordMatch` from src/router/rules.ts: count keywords occurring
(case-insensitively) in the text, bucket the count. -/
def scoreKeywordMatch (text : String) (keywords : List String)
    (name signalLabel : String) (thresholds : KThresholds) (scores : KScores) :
    DimensionScore :=
  let matched := keywords.filter (fun kw => containsSubstr text (lowerStr kw))
  if thresholds.high ≤ matched.length then
    ⟨name, scores.sHigh, some (signalLabel ++ " (" ++ joinComma (matched.take 3) ++ ")")⟩
  else if thresholds.low ≤ matched.length then
    ⟨name, scores.sLow, some (signalLabel ++ " (" ++ joinComma (matched.take 3) ++ ")")⟩
  else ⟨name, scores.sNone, none⟩

/-- The three multi-step regexes (`first.*then`, `step \d`, `\d\.\s`). -/
def multiStepRegexes : List (List Rx) := [
  [litR "first", .star, litR "then"],
  [litR "step ", .cls (fun c => c.isDigit)],
  [.cls (fun c => c.isDigit), litR ".", .cls isWsChar]]

/-- `scoreMultiStep` from src/router/rules.ts. -/
def scoreMultiStep (text : String) : DimensionScore :=
  let hits := multiStepRegexes.filter (fun p => testPatternI p text)
  if 0 < hits.length then ⟨"multiStepPatterns", 1/2, some "multi-step"⟩
  else ⟨"multiStepPatterns", 0, none⟩

/-- `scoreQuestionComplexity` from src/router/rules.ts. -/
def scoreQuestionComplexity (prompt : String) : DimensionScore :=
  let count := prompt.data.count '?'
  if 3 < count then ⟨"questionComplexity", 1/2, some (toString count ++ " questions")⟩
  else ⟨"questionComplexity", 0, none⟩

/-- `scoreAgenticTask` from src/router/rules.ts: returns the dimension score
and the agentic sub-score. -/
def scoreAgenticTask (text : String) (keywords : List String) :
    DimensionScore × ℚ :=
  let matched := keywords.filter (fun kw => containsSubstr text (lowerStr kw))
  let signals := joinComma (matched.take 3)
  if 4 ≤ matched.length then
    (⟨"agenticTask", 1, some ("agentic (" ++ signals ++ ")")⟩, 1)
  else if 3 ≤ matched.length then
    (⟨"agenticTask", 3/5, some ("agentic (" ++ signals ++ ")")⟩, 3/5)
  else if 1 ≤ matched.length then
    (⟨"agenticTask", 1/5, some ("agentic-light (" ++ signals ++ ")")⟩, 1/5)
  else (⟨"agenticTask", 0, none⟩, 0)

/-- The combined lower-cased text `` `${systemPrompt ?? ""} ${prompt}` ``. -/
def rulesText (prompt : String) (systemPrompt : Option String) : String :=
  lowerStr (systemPrompt.getD "" ++ " " ++ prompt)

/-- The fifteen dimension scores, in the source's order. -/
def rulesDimensions (prompt : String) (systemPrompt : Option String)
    (estimatedTokens : Nat) (config : ScoringConfig) : List DimensionScore :=
  let text := rulesText prompt systemPrompt
  let userText := lowerStr prompt
  [scoreTokenCount estimatedTokens config.tokenCountThresholds,
   scoreKeywordMatch text config.codeKeywords "codePresence" "code" ⟨1, 2⟩ ⟨0, 1/2, 1⟩,
   scoreKeywordMatch userText config.reasoningKeywords "reasoningMarkers" "reasoning"
     ⟨1, 2⟩ ⟨0, 7/10, 1⟩,
   scoreKeywordMatch text config.technicalKeywords "technicalTerms" "technical"
     ⟨2, 4⟩ ⟨0, 1/2, 1⟩,
   scoreKeywordMatch text config.creativeKeywords "creativeMarkers" "creative"
     ⟨1, 2⟩ ⟨0, 1/2, 7/10⟩,
   scoreKeywordMatch text config.simpleKeywords "simpleIndicators" "simple"
     ⟨1, 2⟩ ⟨0, -1, -1⟩,
   scoreMultiStep text,
   scoreQuestionComplexity prompt,
   scoreKeywordMatch text config.imperativeVerbs "imperativeVerbs" "imperative"
     ⟨1, 2⟩ ⟨0, 3/10, 1/2⟩,
   scoreKeywordMatch text config.constraintIndicators "constraintCount" "constraints"
     ⟨1, 3⟩ ⟨0, 3/10, 7/10⟩,
   scoreKeywordMatch text config.outputFormatKeywords "outputFormat" "format"
     ⟨1, 2⟩ ⟨0, 2/5, 7/10⟩,
   scoreKeywordMatch text config.referenceKeywords "referenceComplexity" "references"
     ⟨1, 2⟩ ⟨0, 3/10, 1/2⟩,
   scoreKeywordMatch text config.negationKeywords "negationComplexity" "negation"
     ⟨2, 3⟩ ⟨0, 3/10, 1/2⟩,
   scoreKeywordMatch text config.domainSpecificKeywords "domainSpecificity"
     "domain-specific" ⟨1, 2⟩ ⟨0, 1/2, 4/5⟩,
   (scoreAgenticTask text config.agenticTaskKeywords).1]

/-- The classifier's agentic sub-score. -/
def rulesAgenticScore (prompt : String) (systemPrompt : Option String)
    (config : ScoringConfig) : ℚ :=
  (scoreAgenticTask (rulesText prompt systemPrompt) config.agenticTaskKeywords).2

/-- The active signal strings. -/
def rulesSignals (prompt : String) (systemPrompt : Option String)
    (estimatedTokens : Nat) (config : ScoringConfig) : List String :=
  (rulesDimensions prompt systemPrompt estimatedTokens config).filterMap (fun d => d.signal)

/-- `Σ d.score · weights[d.name]`. -/
def weightedSum (w : DimensionWeights) : List DimensionScore → ℚ
  | [] => 0
  | d :: rest => d.score * dimWeight w d.name + weightedSum w rest

/-- The aggregate weighted score of `classifyByRules`. -/
def rulesWeightedScore (prompt : String) (systemPrompt : Option String)
    (estimatedTokens : Nat) (config : ScoringConfig) : ℚ :=
  weightedSum config.dimensionWeights
    (rulesDimensions prompt systemPrompt estimatedTokens config)

/-- How many reasoning keywords occur in the user text
(`userText.includes(kw.toLowerCase())`). -/
def reasoningMatchCount (config : ScoringConfig) (prompt : String) : Nat :=
  (config.reasoningKeywords.filter
    (fun kw => containsSubstr (lowerStr prompt) (lowerStr kw))).length

/-- `calibrateConfidence` from src/router/rules.ts: `1/(1+e^(−k·d))`. -/
noncomputable def calibrateConfidence (distance steepness : ℚ) : ℝ :=
  1 / (1 + Real.exp (-((steepness : ℝ) * (distance : ℝ))))

/-- Tier and distance to the nearest boundary, from the weighted score. -/
def tierAndDistance (ws : ℚ) (b : TierBoundaries) : Tier × ℚ :=
  if ws < b.simpleMedium then (.SIMPLE, b.simpleMedium - ws)
  else if ws < b.mediumComplex then
    (.MEDIUM, min (ws - b.simpleMedium) (b.mediumComplex - ws))
  else if ws < b.complexReasoning then
    (.COMPLEX, min (ws - b.mediumComplex) (b.complexReasoning - ws))
  else (.REASONING, ws - b.complexReasoning)

/-- The classifier's result record. -/
structure ClassifyResult where
  score : ℚ
  tier : Option Tier
  confidence : ℝ
  signals : List String
  agenticScore : ℚ

section

attribute [local instance] Classical.propDecidable

/-- `classifyByRules` from src/router/rules.ts.  The reasoning-marker
override (≥ 2 matches in the user text) forces REASONING with confidence
`max(σ(k·max(score, 0.3)), 0.85)`; otherwise tier and distance come from the
boundaries and a confidence below the threshold yields the ambiguous `none`
tier.  Both return sites share score/confidence/signals/agenticScore.
(The comparison of a real confidence against the threshold uses classical
decidability, locally.) -/
noncomputable def classifyByRules (prompt : String) (systemPrompt : Option String)
    (estimatedTokens : Nat) (config : ScoringConfig) : ClassifyResult :=
  let weightedScore := rulesWeightedScore prompt systemPrompt estimatedTokens config
  if 2 ≤ reasoningMatchCount config prompt then
    { score := weightedScore,
      tier := some .REASONING,
      confidence :=
        max (calibrateConfidence (max weightedScore (3/10)) config.confidenceSteepness)
          ((85 : ℝ) / 100),
      signals := rulesSignals prompt systemPrompt estimatedTokens config,
      agenticScore := rulesAgenticScore prompt systemPrompt config }
  else
    let td := tierAndDistance weightedScore config.tierBoundaries
    let confidence := calibrateConfidence td.2 config.confidenceSteepness
    { score := weightedScore,
      tier := if confidence < (config.confidenceThreshold : ℝ) then none else some td.1,
      confidence := confidence,
      signals := rulesSignals prompt systemPrompt estimatedTokens config,
      agenticScore := rulesAgenticScore prompt systemPrompt config }

end

/-- Claim C2: whenever the user text contains at least two of the configured
reasoning-marker keywords, `classifyByRules` returns tier REASONING with
confidence `max(σ(k·max(weightedScore, 0.3)), 0.85)` — hence at least 0.85. -/
theorem classifyByRules_reasoning_override (prompt : String)
    (systemPrompt : Option String) (estimatedTokens : Nat) (config : ScoringConfig)
    (h2 : 2 ≤ reasoningMatchCount config prompt) :
    (classifyByRules prompt systemPrompt estimatedTokens config).tier
        = some Tier.REASONING ∧
    (classifyByRules prompt systemPrompt estimatedTokens config).confidence =
      max (calibrateConfidence
          (max (rulesWeightedScore prompt systemPrompt estimatedTokens config) (3/10))
          config.confidenceSteepness) ((85 : ℝ) / 100) ∧
    ((85 : ℝ) / 100) ≤
      (classifyByRules prompt systemPrompt estimatedTokens config).confidence := by
  have hcls : classifyByRules prompt systemPrompt estimatedTokens config =
      { score := rulesWeightedScore prompt systemPrompt estimatedTokens config,
        tier := some .REASONING,
        confidence :=
          max (calibrateConfidence
            (max (rulesWeightedScore prompt systemPrompt estimatedTokens config) (3/10))
            config.confidenceSteepness) ((85 : ℝ) / 100),
        signals := rulesSignals prompt systemPrompt estimatedTokens config,
        agenticScore := rulesAgenticScore prompt systemPrompt config } := by
    rw [classifyByRules, if_pos h2]
  rw [hcls]
  exact ⟨rfl, rfl, le_max_right _ _⟩

/-- The default `dimensionWeights` of src/router/config.ts
(0.08, 0.15, 0.18, 0.10, 0.05, 0.02, 0.12, 0.05, 0.03, 0.04, 0.03, 0.02,
0.01, 0.02, 0.04). -/
def DEFAULT_DIMENSION_WEIGHTS : DimensionWeights :=
  ⟨2/25, 3/20, 9/50, 1/10, 1/20, 1/50, 3/25, 1/20, 3/100,
    1/25, 3/100, 1/50, 1/100, 1/50, 1/25⟩

/-- The default `tierBoundaries` of src/router/config.ts (0, 0.3, 0.5). -/
def DEFAULT_TIER_BOUNDARIES : TierBoundaries := ⟨0, 3/10, 1/2⟩

/-- A minimal scoring config with the default weights, boundaries, steepness
and threshold, used to instantiate theorems at concrete inputs. -/
def TEST_SCORING_CONFIG : ScoringConfig :=
  { tokenCountThresholds := ⟨50, 500⟩,
    codeKeywords := [],
    reasoningKeywords := ["prove", "step by step"],
    technicalKeywords := [],
    creativeKeywords := [],
    simpleKeywords := [],
    imperativeVerbs := [],
    constraintIndicators := [],
    outputFormatKeywords := [],
    referenceKeywords := [],
    negationKeywords := [],
    domainSpecificKeywords := [],
    agenticTaskKeywords := [],
    dimensionWeights := DEFAULT_DIMENSION_WEIGHTS,
    tierBoundaries := DEFAULT_TIER_BOUNDARIES,
    confidenceSteepness := 12,
    confidenceThreshold := 7/10 }

/-- Witness for claim C2 on the prompt of the spec's REASONING scenario. -/
theorem classifyByRules_reasoning_override_witness :
    2 ≤ reasoningMatchCount TEST_SCORING_CONFIG
        "Prove step by step that sqrt(2) is irrational." ∧
    (classifyByRules "Prove step by step that sqrt(2) is irrational." none 12
        TEST_SCORING_CONFIG).tier = some Tier.REASONING :=
  ⟨by decide,
    (classifyByRules_reasoning_override _ none 12 TEST_SCORING_CONFIG (by decide)).1⟩

theorem scoreKeywordMatch_no_match (text : String) (L : List String)
    (name label : String) (th : KThresholds) (sc : KScores)
    (h : ∀ kw ∈ L, containsSubstr text (lowerStr kw) = false)
    (hlow : 1 ≤ th.low) (hhigh : 1 ≤ th.high) :
    scoreKeywordMatch text L name label th sc = ⟨name, sc.sNone, none⟩ := by
  unfold scoreKeywordMatch
  have hfil : L.filter (fun kw => containsSubstr text (lowerStr kw)) = [] := by
    rw [List.filter_eq_nil_iff]
    intro a ha
    rw [h a ha]
    exact Bool.false_ne_true
  rw [hfil]
  simp only [List.length_nil]
  rw [if_neg (by omega), if_neg (by omega)]

theorem scoreAgenticTask_no_match (text : String) (L : List String)
    (h : ∀ kw ∈ L, containsSubstr text (lowerStr kw) = false) :
    scoreAgenticTask text L = (⟨"agenticTask", 0, none⟩, 0) := by
  unfold scoreAgenticTask
  have hfil : L.filter (fun kw => containsSubstr text (lowerStr kw)) = [] := by
    rw [List.filter_eq_nil_iff]
    intro a ha
    rw [h a ha]
    exact Bool.false_ne_true
  rw [hfil]
  simp only [List.length_nil]
  rw [if_neg (by omega), if_neg (by omega), if_neg (by omega)]

theorem contains_empty_false {kw : String} (h : containsSubstr " " kw = false) :
    containsSubstr "" kw = false := by
  rw [containsSubstr] at h ⊢
  cases hkw : kw.data with
  | nil => simp [hkw, listInfix, List.isPrefixOf] at h
  | cons c cs => rfl

/-- Hypothesis package: no configured keyword occurs (case-folded) in a
single-space text.  This holds for every real keyword list — keywords are
non-empty, non-blank words. -/
def keywordsAvoidWhitespace (config : ScoringConfig) : Prop :=
  ∀ kw ∈ config.codeKeywords ++ config.reasoningKeywords ++
      config.technicalKeywords ++ config.creativeKeywords ++
      config.simpleKeywords ++ config.imperativeVerbs ++
      config.constraintIndicators ++ config.outputFormatKeywords ++
      config.referenceKeywords ++ config.negationKeywords ++
      config.domainSpecificKeywords ++ config.agenticTaskKeywords,
    containsSubstr " " (lowerStr kw) = false

instance (config : ScoringConfig) : Decidable (keywordsAvoidWhitespace config) := by
  unfold keywordsAvoidWhitespace
  infer_instance

theorem rulesWeightedScore_empty (estimatedTokens : Nat) (config : ScoringConfig)
    (hw : config.dimensionWeights = DEFAULT_DIMENSION_WEIGHTS)
    (hest : estimatedTokens < config.tokenCountThresholds.simple)
    (hnm : keywordsAvoidWhitespace config) :
    rulesWeightedScore "" none estimatedTokens config = -(2/25) := by
  have hsp : ∀ L : List String, (∀ kw ∈ L, kw ∈ config.codeKeywords ++
      config.reasoningKeywords ++ config.technicalKeywords ++
      config.creativeKeywords ++ config.simpleKeywords ++ config.imperativeVerbs ++
      config.constraintIndicators ++ config.outputFormatKeywords ++
      config.referenceKeywords ++ config.negationKeywords ++
      config.domainSpecificKeywords ++ config.agenticTaskKeywords) →
      ∀ kw ∈ L, containsSubstr " " (lowerStr kw) = false :=
    fun L hsub kw hkw => hnm kw (hsub kw hkw)
  have htext : rulesText "" none = " " := rfl
  have huser : lowerStr "" = "" := rfl
  have hreasonE : ∀ kw ∈ config.reasoningKeywords,
      containsSubstr "" (lowerStr kw) = false := by
    intro kw hkw
    exact contains_empty_false (hnm (kw) (by simp [hkw]))
  have htok : scoreTokenCount estimatedTokens config.tokenCountThresholds
      = ⟨"tokenCount", -1, some ("short (" ++ toString estimatedTokens ++ " tokens)")⟩ := by
    unfold scoreTokenCount
    rw [if_pos hest]
  have hms : scoreMultiStep " " = ⟨"multiStepPatterns", 0, none⟩ := rfl
  have hq : scoreQuestionComplexity "" = ⟨"questionComplexity", 0, none⟩ := rfl
  simp only [rulesWeightedScore, rulesDimensions]
  rw [htext, huser, htok, hms, hq,
    scoreKeywordMatch_no_match _ _ _ _ _ _
      (hsp config.codeKeywords (by intro kw h; simp [h])) (by norm_num) (by norm_num),
    scoreKeywordMatch_no_match _ _ _ _ _ _ hreasonE (by norm_num) (by norm_num),
    scoreKeywordMatch_no_match _ _ _ _ _ _
      (hsp config.technicalKeywords (by intro kw h; simp [h])) (by norm_num) (by norm_num),
    scoreKeywordMatch_no_match _ _ _ _ _ _
      (hsp config.creativeKeywords (by intro kw h; simp [h])) (by norm_num) (by norm_num),
    scoreKeywordMatch_no_match _ _ _ _ _ _
      (hsp config.simpleKeywords (by intro kw h; simp [h])) (by norm_num) (by norm_num),
    scoreKeywordMatch_no_match _ _ _ _ _ _
      (hsp config.imperativeVerbs (by intro kw h; simp [h])) (by norm_num) (by norm_num),
    scoreKeywordMatch_no_match _ _ _ _ _ _
      (hsp config.constraintIndicators (by intro kw h; simp [h])) (by norm_num) (by norm_num),
    scoreKeywordMatch_no_match _ _ _ _ _ _
      (hsp config.outputFormatKeywords (by intro kw h; simp [h])) (by norm_num) (by norm_num),
    scoreKeywordMatch_no_match _ _ _ _ _ _
      (hsp config.referenceKeywords (by intro kw h; simp [h])) (by norm_num) (by norm_num),
    scoreKeywordMatch_no_match _ _ _ _ _ _
      (hsp config.negationKeywords (by intro kw h; simp [h])) (by norm_num) (by norm_num),
    scoreKeywordMatch_no_match _ _ _ _ _ _
      (hsp config.domainSpecificKeywords (by intro kw h; simp [h])) (by norm_num) (by norm_num),
    scoreAgenticTask_no_match _ _
      (hsp config.agenticTaskKeywords (by intro kw h; simp [h])),
    hw]
  simp only [weightedSum, dimWeight, DEFAULT_DIMENSION_WEIGHTS]
  norm_num

theorem classifyByRules_score (prompt : String) (systemPrompt : Option String)
    (estimatedTokens : Nat) (config : ScoringConfig) :
    (classifyByRules prompt systemPrompt estimatedTokens config).score
      = rulesWeightedScore prompt systemPrompt estimatedTokens config := by
  simp only [classifyByRules]
  by_cases h : 2 ≤ reasoningMatchCount config prompt
  · rw [if_pos h]
  · rw [if_neg h]

theorem exp_2425_ge : (7 : ℝ)/3 ≤ Real.exp (24/25) := by
  have h1 : Real.exp ((24 : ℝ)/25) = (Real.exp (6/25))^(4 : ℕ) := by
    rw [← Real.exp_nat_mul]
    norm_num
  have h2 : (1 + (6 : ℝ)/25) ≤ Real.exp (6/25) := by
    have h := Real.add_one_le_exp ((6 : ℝ)/25)
    linarith
  have h3 : ((31 : ℝ)/25)^(4 : ℕ) ≤ (Real.exp (6/25))^(4 : ℕ) := by
    apply pow_le_pow_left₀ (by norm_num) (by linarith)
  calc (7 : ℝ)/3 ≤ ((31 : ℝ)/25)^(4 : ℕ) := by norm_num
    _ ≤ (Real.exp (6/25))^(4 : ℕ) := h3
    _ = Real.exp (24/25) := h1.symm

theorem sigmoid_2425_ge : (7 : ℝ)/10 ≤ 1 / (1 + Real.exp (-(24/25))) := by
  have hexp : Real.exp (-((24 : ℝ)/25)) ≤ 3/7 := by
    rw [Real.exp_neg]
    have h73 : (7 : ℝ)/3 ≤ Real.exp (24/25) := exp_2425_ge
    have hpos : (0 : ℝ) < (7 : ℝ)/3 := by norm_num
    have hinv := inv_anti₀ hpos h73
    calc (Real.exp ((24 : ℝ)/25))⁻¹ ≤ ((7 : ℝ)/3)⁻¹ := hinv
      _ = 3/7 := by norm_num
  have hdenpos : (0 : ℝ) < 1 + Real.exp (-((24 : ℝ)/25)) := by positivity
  rw [le_div_iff₀ hdenpos]
  nlinarith [hexp]

theorem calibrate_225_12_ge : ((7 : ℚ)/10 : ℚ) ≤ 1 ∧
    ((7 : ℝ)/10) ≤ calibrateConfidence (2/25) 12 := by
  constructor
  · norm_num
  · unfold calibrateConfidence
    have harg : -(((12 : ℚ) : ℝ) * (((2 : ℚ)/25 : ℚ) : ℝ)) = -((24 : ℝ)/25) := by
      push_cast
      ring
    rw [harg]
    exact sigmoid_2425_ge

theorem classifyByRules_empty_tier (estimatedTokens : Nat) (config : ScoringConfig)
    (hw : config.dimensionWeights = DEFAULT_DIMENSION_WEIGHTS)
    (hb : config.tierBoundaries = DEFAULT_TIER_BOUNDARIES)
    (hk : config.confidenceSteepness = 12)
    (ht : config.confidenceThreshold = 7/10)
    (hest : estimatedTokens < config.tokenCountThresholds.simple)
    (hnm : keywordsAvoidWhitespace config) :
    (classifyByRules "" none estimatedTokens config).tier = some Tier.SIMPLE := by
  have hws := rulesWeightedScore_empty estimatedTokens config hw hest hnm
  have hcount : reasoningMatchCount config "" = 0 := by
    unfold reasoningMatchCount
    have hfil : config.reasoningKeywords.filter
        (fun kw => containsSubstr (lowerStr "") (lowerStr kw)) = [] := by
      rw [List.filter_eq_nil_iff]
      intro a ha
      rw [show lowerStr "" = "" from rfl,
        contains_empty_false (hnm a (by simp [ha]))]
      exact Bool.false_ne_true
    rw [hfil]
    rfl
  have hnot : ¬ (2 ≤ reasoningMatchCount config "") := by
    rw [hcount]
    omega
  simp only [classifyByRules]
  rw [if_neg hnot]
  simp only []
  rw [hws, hb, hk, ht]
  have htd : tierAndDistance (-(2/25)) DEFAULT_TIER_BOUNDARIES = (Tier.SIMPLE, 2/25) := by
    unfold tierAndDistance DEFAULT_TIER_BOUNDARIES
    rw [if_pos (by norm_num)]
    norm_num
  rw [htd]
  show (if calibrateConfidence (2/25) 12 < (((7 : ℚ)/10 : ℚ) : ℝ) then none
    else some Tier.SIMPLE) = some Tier.SIMPLE
  have hcast : ((((7 : ℚ)/10 : ℚ)) : ℝ) = (7 : ℝ)/10 := by push_cast; ring
  rw [if_neg]
  rw [hcast, not_lt]
  exact (calibrate_225_12_ge).2

/-- Claim C1 (amended): the classifier is a total function by construction
(this theorem holds for every input), and an empty prompt — with the
estimated token count below the `simple` threshold, default weights,
boundaries, steepness and threshold, and keyword lists that do not match
whitespace-only text — produces aggregate weighted score −0.08 (the
tokenCount dimension scores −1 at weight 0.08; every other dimension scores
0) and tier SIMPLE. -/
theorem classifyByRules_empty_prompt (estimatedTokens : Nat) (config : ScoringConfig)
    (hw : config.dimensionWeights = DEFAULT_DIMENSION_WEIGHTS)
    (hb : config.tierBoundaries = DEFAULT_TIER_BOUNDARIES)
    (hk : config.confidenceSteepness = 12)
    (ht : config.confidenceThreshold = 7/10)
    (hest : estimatedTokens < config.tokenCountThresholds.simple)
    (hnm : keywordsAvoidWhitespace config) :
    (classifyByRules "" none estimatedTokens config).score = -(2/25) ∧
    (classifyByRules "" none estimatedTokens config).tier = some Tier.SIMPLE :=
  ⟨by rw [classifyByRules_score]
      exact rulesWeightedScore_empty estimatedTokens config hw hest hnm,
    classifyByRules_empty_tier estimatedTokens config hw hb hk ht hest hnm⟩

/-- Claim C1 counterexample: at a config with the default weights and
boundaries, the empty prompt's aggregate weighted score is −0.08, not 0 (the
tokenCount dimension fires −1 × 0.08 for short inputs). -/
theorem classifyByRules_empty_score_not_zero :
    (classifyByRules "" none 0 TEST_SCORING_CONFIG).score ≠ 0 := by
  rw [classifyByRules_score,
    rulesWeightedScore_empty 0 TEST_SCORING_CONFIG rfl (by decide) (by decide)]
  norm_num

/-- Witness for the amended claim C1 at the concrete minimal config. -/
theorem classifyByRules_empty_prompt_witness :
    (TEST_SCORING_CONFIG.dimensionWeights = DEFAULT_DIMENSION_WEIGHTS) ∧
    (TEST_SCORING_CONFIG.tierBoundaries = DEFAULT_TIER_BOUNDARIES) ∧
    (TEST_SCORING_CONFIG.confidenceSteepness = 12) ∧
    (TEST_SCORING_CONFIG.confidenceThreshold = 7/10) ∧
    (0 < TEST_SCORING_CONFIG.tokenCountThresholds.simple) ∧
    keywordsAvoidWhitespace TEST_SCORING_CONFIG ∧
    (classifyByRules "" none 0 TEST_SCORING_CONFIG).tier = some Tier.SIMPLE :=
  ⟨rfl, rfl, rfl, rfl, by decide, by decide,
    (classifyByRules_empty_prompt 0 TEST_SCORING_CONFIG rfl rfl rfl rfl
      (by decide) (by decide)).2⟩

/-! ## SHA-256 (for the dedup hash)

A byte-level implementation of FIPS 180-4 SHA-256 over `List Nat`
(each element a byte), used to state hash-level properties concretely. -/

/-- Truncate to 32 bits. -/
def w32 (n : Nat) : Nat := n % 4294967296

/-- 32-bit right rotation. -/
def rotr32 (n x : Nat) : Nat := w32 ((x >>> n) ||| (x <<< (32 - n)))

/-- 32-bit modular addition. -/
def add32 (a b : Nat) : Nat := (a + b) % 4294967296

def ssig0 (x : Nat) : Nat := (rotr32 7 x) ^^^ (rotr32 18 x) ^^^ (x >>> 3)
def ssig1 (x : Nat) : Nat := (rotr32 17 x) ^^^ (rotr32 19 x) ^^^ (x >>> 10)
def bsig0 (x : Nat) : Nat := (rotr32 2 x) ^^^ (rotr32 13 x) ^^^ (rotr32 22 x)
def bsig1 (x : Nat) : Nat := (rotr32 6 x) ^^^ (rotr32 11 x) ^^^ (rotr32 25 x)

/-- The 64 SHA-256 round constants (FIPS 180-4 §4.2.2, in decimal). -/
def SHA_K : List Nat := [
  1116352408, 1899447441, 3049323471, 3921009573, 961987163, 1508970993,
  2453635748, 2870763221, 3624381080, 310598401, 607225278, 1426881987,
  1925078388, 2162078206, 2614888103, 3248222580, 3835390401, 4022224774,
  264347078, 604807628, 770255983, 1249150122, 1555081692, 1996064986,
  2554220882, 2821834349, 2952996808, 3210313671, 3336571891, 3584528711,
  113926993, 338241895, 666307205, 773529912, 1294757372, 1396182291,
  1695183700, 1986661051, 2177026350, 2456956037, 2730485921, 2820302411,
  3259730800, 3345764771, 3516065817, 3600352804, 4094571909, 275423344,
  430227734, 506948616, 659060556, 883997877, 958139571, 1322822218,
  1537002063, 1747873779, 1955562222, 2024104815, 2227730452, 2361852424,
  2428436474, 2756734187, 3204031479, 3329325298]

/-- The initial hash state (FIPS 180-4 §5.3.3, in decimal). -/
def SHA_H0 : List Nat := [
  1779033703, 3144134277, 1013904242, 2773480762,
  1359893119, 2600822924, 528734635, 1541459225]

/-- Big-endian length field (8 bytes). -/
def lenBytes (bits : Nat) : List Nat :=
  (List.range 8).map (fun i => (bits >>> ((7 - i) * 8)) % 256)

/-- Append the 0x80 marker, zero padding and the 64-bit length. -/
def padMessage (msg : List Nat) : List Nat :=
  let len := msg.length
  let zeros := (119 - (len % 64)) % 64
  msg ++ [0x80] ++ List.replicate zeros 0 ++ lenBytes (len * 8)

/-- Group bytes into big-endian 32-bit words. -/
def bytesToWords : List Nat → List Nat
  | b0 :: b1 :: b2 :: b3 :: rest =>
      (((b0 * 256 + b1) * 256 + b2) * 256 + b3) :: bytesToWords rest
  | _ => []

/-- Extend the 16 schedule words to 64. -/
def extendW (w : List Nat) : Nat → List Nat
  | 0 => w
  | f + 1 =>
      let n := w.length
      let wi := add32 (add32 (ssig1 (w.getD (n - 2) 0)) (w.getD (n - 7) 0))
        (add32 (ssig0 (w.getD (n - 15) 0)) (w.getD (n - 16) 0))
      extendW (w ++ [wi]) f

/-- One compression round on the state `[a,b,c,d,e,f,g,h]`. -/
def compressRound (st : List Nat) (ki wi : Nat) : List Nat :=
  match st with
  | [a, b, c, d, e, f, g, h] =>
      let ch := (e &&& f) ^^^ ((4294967295 ^^^ e) &&& g)
      let maj := ((a &&& b) ^^^ (a &&& c)) ^^^ (b &&& c)
      let t1 := add32 h (add32 (bsig1 e) (add32 ch (add32 ki wi)))
      let t2 := add32 (bsig0 a) maj
      [add32 t1 t2, a, b, c, add32 d t1, e, f, g]
  | other => other

/-- Run the 64 rounds. -/
def roundLoop (st : List Nat) : List Nat → List Nat → List Nat
  | k :: ks, wv :: ws => roundLoop (compressRound st k wv) ks ws
  | _, _ => st

/-- Compress one 64-byte block into the running hash. -/
def compressBlock (h : List Nat) (block : List Nat) : List Nat :=
  let w := extendW (bytesToWords block) 48
  let st := roundLoop h SHA_K w
  List.zipWith add32 h st

/-- Split into 64-byte chunks (fuel-based structural recursion). -/
def chunks64 : Nat → List Nat → List (List Nat)
  | 0, _ => []
  | _ + 1, [] => []
  | f + 1, l => l.take 64 :: chunks64 f (l.drop 64)

/-- UTF-8 encoding of one character. -/
def utf8EncodeChar (c : Char) : List Nat :=
  let n := c.toNat
  if n < 128 then [n]
  else if n < 2048 then [192 ||| (n >>> 6), 128 ||| (n &&& 63)]
  else if n < 65536 then
    [224 ||| (n >>> 12), 128 ||| ((n >>> 6) &&& 63), 128 ||| (n &&& 63)]
  else
    [240 ||| (n >>> 18), 128 ||| ((n >>> 12) &&& 63),
      128 ||| ((n >>> 6) &&& 63), 128 ||| (n &&& 63)]

/-- UTF-8 bytes of a string. -/
def utf8Bytes (s : String) : List Nat := s.data.flatMap utf8EncodeChar

/-- SHA-256 of a byte list. -/
def sha256Bytes (msg : List Nat) : List Nat :=
  let padded := padMessage msg
  let hfin := (chunks64 padded.length padded).foldl compressBlock SHA_H0
  hfin.flatMap (fun w => [(w >>> 24) % 256, (w >>> 16) % 256, (w >>> 8) % 256, w % 256])

def hexDigit (n : Nat) : Char :=
  if n < 10 then Char.ofNat (48 + n) else Char.ofNat (87 + n)

def bytesToHex (bs : List Nat) : String :=
  ⟨bs.flatMap (fun b => [hexDigit (b / 16), hexDigit (b % 16)])⟩

/-- Lower-case hex SHA-256 of a string's UTF-8 bytes
(`createHash("sha256").update(content).digest("hex")`). -/
def sha256hex (s : String) : String := bytesToHex (sha256Bytes (utf8Bytes s))

/-- FIPS 180-4 test vector, checked by evaluation. -/
theorem sha256hex_abc :
    sha256hex "abc"
      = "ba7816bf8f01cfea414140de5dae2223b00361a396177a9cb410ff61f20015ad" := by
  decide

/-! ## src/dedup.ts : canonicalization and the dedup hash

JSON values are a tagged variant; a request body (`RawBody`) is either a
parsed JSON value (the `JSON.parse(body)` succeeded) or raw bytes (the
parse threw).  `JSON.parse ∘ JSON.stringify = id` on this value domain, so
re-parsing a serialized body is modelled by keeping the value. -/

inductive Json where
  | null
  | bool (b : Bool)
  | num (n : ℤ)
  | str (s : String)
  | arr (xs : List Json)
  | obj (fields : List (String × Json))

/-- `\w` (regex word character). -/
def isWordChar (c : Char) : Bool := c.isAlpha || c.isDigit || c = '_'

/-- `\s` (JS regex whitespace; ASCII part plus the common Unicode spaces). -/
def isJsSpace (c : Char) : Bool :=
  isWsChar c || c = Char.ofNat 160 || c = Char.ofNat 5760 ||
    (8192 ≤ c.toNat ∧ c.toNat ≤ 8202) || c = Char.ofNat 8232 ||
    c = Char.ofNat 8233 || c = Char.ofNat 8239 || c = Char.ofNat 8287 ||
    c = Char.ofNat 12288 || c = Char.ofNat 65279

def expectChar (c : Char) : List Char → Option (List Char)
  | x :: rest => if x = c then some rest else none
  | [] => none

/-- Exactly `n` characters of class `p`. -/
def takeCount (p : Char → Bool) : Nat → List Char → Option (List Char)
  | 0, cs => some cs
  | _ + 1, [] => none
  | n + 1, x :: rest => if p x then takeCount p n rest else none

/-- One or more characters of class `p` (greedy). -/
def takeSome1 (p : Char → Bool) : List Char → Option (List Char)
  | [] => none
  | x :: rest => if p x then some (rest.dropWhile p) else none

/-- One step of the timestamp pattern: a literal character, an exact count
of a class, or a greedy one-or-more run of a class. -/
inductive TsStep where
  | ch (c : Char)
  | cnt (p : Char → Bool) (n : Nat)
  | run1 (p : Char → Bool)

def runSteps : List TsStep → List Char → Option (List Char)
  | [], cs => some cs
  | .ch c :: rest, cs => (expectChar c cs).bind (runSteps rest)
  | .cnt p n :: rest, cs => (takeCount p n cs).bind (runSteps rest)
  | .run1 p :: rest, cs => (takeSome1 p cs).bind (runSteps rest)

/-- `^\[\w{3}\s+\d{4}-\d{2}-\d{2}\s+\d{2}:\d{2}\s+\w+\]` -/
def timestampSteps : List TsStep :=
  [.ch '[', .cnt isWordChar 3, .run1 isJsSpace, .cnt Char.isDigit 4,
   .ch '-', .cnt Char.isDigit 2, .ch '-', .cnt Char.isDigit 2,
   .run1 isJsSpace, .cnt Char.isDigit 2, .ch ':', .cnt Char.isDigit 2,
   .run1 isJsSpace, .run1 isWordChar, .ch ']']

/-- Match the leading timestamp pattern (with its trailing `\s*`) and
return the remainder, if it matches. -/
def matchTimestamp (cs : List Char) : Option (List Char) :=
  (runSteps timestampSteps cs).map (fun rest => rest.dropWhile isJsSpace)

/-- `value.replace(TIMESTAMP_PATTERN, "")`: strip one leading timestamp. -/
def stripTsStr (s : String) : String :=
  match matchTimestamp s.data with
  | some rest => ⟨rest⟩
  | none => s

mutual

/-- `stripTimestamps` from src/dedup.ts: strip the leading timestamp from
every string sitting under a `content` key. -/
def stripTimestamps : Json → Json
  | .obj fields => .obj (stripFields fields)
  | .arr xs => .arr (stripArr xs)
  | v => v

def stripArr : List Json → List Json
  | [] => []
  | x :: xs => stripTimestamps x :: stripArr xs

def stripFields : List (String × Json) → List (String × Json)
  | [] => []
  | (k, v) :: rest =>
      (if k = "content" then
        match v with
        | .str s => (k, Json.str (stripTsStr s))
        | other => (k, stripTimestamps other)
      else (k, stripTimestamps v)) :: stripFields rest

end

/-- Generic insertion sort (models `Array.prototype.sort`, which is stable). -/
def insertSorted (le : α → α → Bool) (x : α) : List α → List α
  | [] => [x]
  | y :: ys => if le x y then x :: y :: ys else y :: insertSorted le x ys

def sortByB (le : α → α → Bool) : List α → List α
  | [] => []
  | x :: xs => insertSorted le x (sortByB le xs)

/-- Lexicographic comparison on code points (models JS string `<`). -/
def lexLe : List Char → List Char → Bool
  | [], _ => true
  | _ :: _, [] => false
  | a :: as, b :: bs =>
      if a.toNat < b.toNat then true
      else if b.toNat < a.toNat then false
      else lexLe as bs

/-- Key order used by `Object.keys(obj).sort()`. -/
def fieldLe (a b : String × Json) : Bool := lexLe a.1.data b.1.data

def sortFields (fields : List (String × Json)) : List (String × Json) :=
  sortByB fieldLe fields

mutual

/-- `canonicalize` from src/dedup.ts: recursively sort object keys.  The
source sorts the keys and then canonicalizes each value in sorted order;
since the sort compares keys only and leaves values untouched, this equals
canonicalizing the values first and then sorting
(`canonFields_sortFields_comm` below), which is how the recursion is
structured here. -/
def canonicalize : Json → Json
  | .obj fields => .obj (sortFields (canonFields fields))
  | .arr xs => .arr (canonArr xs)
  | v => v

def canonArr : List Json → List Json
  | [] => []
  | x :: xs => canonicalize x :: canonArr xs

def canonFields : List (String × Json) → List (String × Json)
  | [] => []
  | (k, v) :: rest => (k, canonicalize v) :: canonFields rest

end

/-- JSON string escaping as `JSON.stringify` performs it. -/
def escapeJsonChar (c : Char) : List Char :=
  if c = '"' then ['\\', '"']
  else if c = '\\' then ['\\', '\\']
  else if c = '\n' then ['\\', 'n']
  else if c = '\r' then ['\\', 'r']
  else if c = '\t' then ['\\', 't']
  else if c = Char.ofNat 8 then ['\\', 'b']
  else if c = Char.ofNat 12 then ['\\', 'f']
  else if c.toNat < 32 then
    ['\\', 'u', '0', '0', hexDigit (c.toNat / 16), hexDigit (c.toNat % 16)]
  else [c]

def jsonQuote (s : String) : String :=
  ⟨'"' :: (s.data.flatMap escapeJsonChar ++ ['"'])⟩

mutual

/-- `JSON.stringify` on the value domain. -/
def stringify : Json → String
  | .null => "null"
  | .bool true => "true"
  | .bool false => "false"
  | .num n => toString n
  | .str s => jsonQuote s
  | .arr xs => "[" ++ stringifyArr xs ++ "]"
  | .obj fs => "\x7b" ++ stringifyFields fs ++ "\x7d"

def stringifyArr : List Json → String
  | [] => ""
  | [x] => stringify x
  | x :: xs => stringify x ++ "," ++ stringifyArr xs

def stringifyFields : List (String × Json) → String
  | [] => ""
  | [(k, v)] => jsonQuote k ++ ":" ++ stringify v
  | (k, v) :: rest => jsonQuote k ++ ":" ++ stringify v ++ "," ++ stringifyFields rest

end

/-- A request body: JSON (when `JSON.parse` succeeds) or raw bytes. -/
inductive RawBody where
  | json (v : Json)
  | raw (s : String)

/-- The body's byte content. -/
def serializeBody : RawBody → String
  | .json v => stringify v
  | .raw s => s

/-- The canonicalization step of `RequestDeduplicator.hash`: parse when
possible, strip timestamps, sort keys, re-serialize; raw bodies unchanged. -/
def canonBody : RawBody → RawBody
  | .json v => .json (canonicalize (stripTimestamps v))
  | .raw s => .raw s

/-- First 16 hex chars of SHA-256 (the claim's `hash`). -/
def sha16 (s : String) : String := ⟨(sha256hex s).data.take 16⟩

/-- `RequestDeduplicator.hash`: `sha16` over the canonicalized body. -/
def dedupHash (b : RawBody) : String := sha16 (serializeBody (canonBody b))

/-- The doubled-timestamp body used to refute claim C5. -/
def doubleTsBody : RawBody :=
  .json (.obj [("content",
    .str "[Mon 2024-01-01 10:00 UTC] [Tue 2024-01-02 11:00 UTC] hi")])

example : serializeBody (canonBody doubleTsBody)
    = "\x7b\"content\":\"[Tue 2024-01-02 11:00 UTC] hi\"\x7d" := by decide
example : serializeBody (canonBody (canonBody doubleTsBody))
    = "\x7b\"content\":\"hi\"\x7d" := by decide
example : dedupHash doubleTsBody = "329832fc4fdaef07" := by decide
example : dedupHash (canonBody doubleTsBody) = "d710af77f08a261f" := by decide

/-- Claim C5 counterexample: for the body
`{"content":"[Mon 2024-01-01 10:00 UTC] [Tue 2024-01-02 11:00 UTC] hi"}`
one canonicalization strips only the first timestamp while a second strips
the next, so `hash(canon(x)) ≠ hash(canon(canon(x)))` (the two SHA-256
prefixes are computed by the kernel). -/
theorem dedupHash_not_canon_invariant :
    dedupHash doubleTsBody ≠ dedupHash (canonBody doubleTsBody) := by decide

/-! ### Sorting lemmas for key canonicalization -/

theorem lexLe_total (a b : List Char) : lexLe a b = true ∨ lexLe b a = true := by
  induction a generalizing b with
  | nil => left; rfl
  | cons x xs ih =>
    cases b with
    | nil => right; rfl
    | cons y ys =>
      by_cases hxy : x.toNat < y.toNat
      · left; simp [lexLe, hxy]
      · by_cases hyx : y.toNat < x.toNat
        · right; simp [lexLe, hyx]
        · rcases ih ys with h | h
          · left; simp [lexLe, hxy, hyx, h]
          · right; simp [lexLe, hxy, hyx, h]

theorem lexLe_trans {a b c : List Char} (h1 : lexLe a b = true)
    (h2 : lexLe b c = true) : lexLe a c = true := by
  induction a generalizing b c with
  | nil => rfl
  | cons x xs ih =>
    cases b with
    | nil => simp [lexLe] at h1
    | cons y ys =>
      cases c with
      | nil => simp [lexLe] at h2
      | cons z zs =>
        rw [lexLe] at h1 h2 ⊢
        by_cases hxy : x.toNat < y.toNat <;> by_cases hyz : y.toNat < z.toNat
        · rw [if_pos (by omega)]
        · simp only [if_pos hxy] at h1
          simp only [if_neg hyz] at h2
          by_cases hzy : z.toNat < y.toNat
          · simp [hzy] at h2
          · have : y.toNat = z.toNat := by omega
            rw [if_pos (by omega)]
        · simp only [if_neg hxy] at h1
          by_cases hyx : y.toNat < x.toNat
          · simp [hyx] at h1
          · have hxe : x.toNat = y.toNat := by omega
            rw [if_pos (by omega)]
        · simp only [if_neg hxy] at h1
          simp only [if_neg hyz] at h2
          by_cases hyx : y.toNat < x.toNat
          · simp [hyx] at h1
          · by_cases hzy : z.toNat < y.toNat
            · simp [hzy] at h2
            · simp only [hyx, if_neg] at h1
              simp only [hzy, if_neg] at h2
              rw [if_neg (by omega), if_neg (by omega)]
              exact ih h1 h2

theorem fieldLe_total (a b : String × Json) : fieldLe a b = true ∨ fieldLe b a = true :=
  lexLe_total a.1.data b.1.data

theorem fieldLe_trans {a b c : String × Json} (h1 : fieldLe a b = true)
    (h2 : fieldLe b c = true) : fieldLe a c = true :=
  lexLe_trans h1 h2

/-- Pairwise-sortedness for a boolean comparator. -/
def PairwiseLe (le : α → α → Bool) (l : List α) : Prop :=
  List.Pairwise (fun a b => le a b = true) l

theorem mem_insertSorted {le : α → α → Bool} {x z : α} {l : List α}
    (h : z ∈ insertSorted le x l) : z = x ∨ z ∈ l := by
  induction l with
  | nil =>
    rw [insertSorted] at h
    exact Or.inl (List.mem_singleton.mp h)
  | cons w ws ih =>
    rw [insertSorted] at h
    by_cases hxw : le x w = true
    · rw [if_pos hxw] at h
      rcases List.mem_cons.mp h with rfl | h2
      · exact Or.inl rfl
      · exact Or.inr h2
    · rw [if_neg hxw] at h
      rcases List.mem_cons.mp h with rfl | h2
      · exact Or.inr (List.mem_cons_self _ _)
      · rcases ih h2 with rfl | h3
        · exact Or.inl rfl
        · exact Or.inr (List.mem_cons_of_mem _ h3)

theorem insertSorted_pairwise {le : α → α → Bool}
    (htot : ∀ a b, le a b = true ∨ le b a = true)
    (htr : ∀ {a b c}, le a b = true → le b c = true → le a c = true)
    (x : α) {l : List α} (hl : PairwiseLe le l) :
    PairwiseLe le (insertSorted le x l) := by
  induction l with
  | nil => exact List.pairwise_singleton _ _
  | cons y ys ih =>
    rw [insertSorted]
    by_cases hxy : le x y = true
    · rw [if_pos hxy]
      refine List.Pairwise.cons ?_ hl
      intro z hz
      rcases List.mem_cons.mp hz with rfl | hz
      · exact hxy
      · exact htr hxy (List.rel_of_pairwise_cons hl hz)
    · rw [if_neg hxy]
      have hyx : le y x = true := (htot x y).resolve_left hxy
      refine List.Pairwise.cons ?_
        (ih (List.Pairwise.sublist (List.sublist_cons_self y ys) hl))
      intro z hz
      rcases mem_insertSorted hz with rfl | hzys
      · exact hyx
      · exact List.rel_of_pairwise_cons hl hzys

theorem sortByB_pairwise {le : α → α → Bool}
    (htot : ∀ a b, le a b = true ∨ le b a = true)
    (htr : ∀ {a b c}, le a b = true → le b c = true → le a c = true)
    (l : List α) : PairwiseLe le (sortByB le l) := by
  induction l with
  | nil => exact List.Pairwise.nil
  | cons x xs ih => exact insertSorted_pairwise htot htr x ih

theorem sortByB_eq_self_of_pairwise {le : α → α → Bool} {l : List α}
    (hl : PairwiseLe le l) : sortByB le l = l := by
  induction l with
  | nil => rfl
  | cons x xs ih =>
    rw [sortByB, ih (List.Pairwise.sublist (List.sublist_cons_self x xs) hl)]
    cases xs with
    | nil => rfl
    | cons y ys =>
      show (if le x y = true then x :: y :: ys else y :: insertSorted le x ys)
        = x :: y :: ys
      rw [if_pos (List.rel_of_pairwise_cons hl (List.mem_cons_self _ _))]

theorem sortFields_idem (l : List (String × Json)) :
    sortFields (sortFields l) = sortFields l :=
  sortByB_eq_self_of_pairwise
    (sortByB_pairwise fieldLe_total (fun h1 h2 => fieldLe_trans h1 h2) l)

theorem map_insertSorted {le : α → α → Bool} (f : α → α)
    (hf : ∀ a b, le (f a) (f b) = le a b) (x : α) (l : List α) :
    (insertSorted le x l).map f = insertSorted le (f x) (l.map f) := by
  induction l with
  | nil => rfl
  | cons y ys ih =>
    show (if le x y = true then x :: y :: ys else y :: insertSorted le x ys).map f
      = if le (f x) (f y) = true then f x :: f y :: ys.map f
        else f y :: insertSorted le (f x) (ys.map f)
    by_cases hxy : le x y = true
    · rw [if_pos hxy, if_pos (by rw [hf]; exact hxy)]
      rfl
    · rw [if_neg hxy, if_neg (by rw [hf]; exact hxy), List.map_cons, ih]

theorem map_sortByB {le : α → α → Bool} (f : α → α)
    (hf : ∀ a b, le (f a) (f b) = le a b) (l : List α) :
    (sortByB le l).map f = sortByB le (l.map f) := by
  induction l with
  | nil => rfl
  | cons x xs ih => rw [sortByB, List.map_cons, sortByB, map_insertSorted f hf, ih]

/-! ### Canonicalization algebra -/

/-- Value part of `canonFields`, as a map. -/
def canonEntry (kv : String × Json) : String × Json := (kv.1, canonicalize kv.2)

/-- Entry part of `stripFields`, as a map. -/
def stripEntry (kv : String × Json) : String × Json :=
  if kv.1 = "content" then
    match kv.2 with
    | .str s => (kv.1, Json.str (stripTsStr s))
    | other => (kv.1, stripTimestamps other)
  else (kv.1, stripTimestamps kv.2)

theorem canonFields_eq_map (l : List (String × Json)) :
    canonFields l = l.map canonEntry := by
  induction l with
  | nil => rfl
  | cons kv rest ih =>
    obtain ⟨k, v⟩ := kv
    show (k, canonicalize v) :: canonFields rest = canonEntry (k, v) :: rest.map canonEntry
    rw [ih]
    rfl

theorem stripFields_cons (kv : String × Json) (rest : List (String × Json)) :
    stripFields (kv :: rest) = stripEntry kv :: stripFields rest := by
  cases kv with
  | mk k v =>
    by_cases hk : k = "content"
    · cases v <;> simp [stripFields, stripEntry, hk]
    · cases v <;> simp [stripFields, stripEntry, hk]

theorem stripFields_eq_map (l : List (String × Json)) :
    stripFields l = l.map stripEntry := by
  induction l with
  | nil => rfl
  | cons kv rest ih => rw [List.map_cons, ← ih, stripFields_cons]

theorem stripEntry_key (kv : String × Json) : (stripEntry kv).1 = kv.1 := by
  unfold stripEntry
  by_cases h : kv.1 = "content"
  · rw [if_pos h]
    cases kv.2 <;> rfl
  · rw [if_neg h]

theorem fieldLe_canonEntry (a b : String × Json) :
    fieldLe (canonEntry a) (canonEntry b) = fieldLe a b := rfl

theorem fieldLe_stripEntry (a b : String × Json) :
    fieldLe (stripEntry a) (stripEntry b) = fieldLe a b := by
  unfold fieldLe
  rw [stripEntry_key, stripEntry_key]

/-- Sorting keys then canonicalizing values equals canonicalizing then
sorting (the sort compares keys only). -/
theorem canonFields_sortFields_comm (l : List (String × Json)) :
    canonFields (sortFields l) = sortFields (canonFields l) := by
  rw [canonFields_eq_map, canonFields_eq_map, sortFields, sortFields,
    map_sortByB canonEntry fieldLe_canonEntry l]

theorem stripFields_sortFields_comm (l : List (String × Json)) :
    stripFields (sortFields l) = sortFields (stripFields l) := by
  rw [stripFields_eq_map, stripFields_eq_map, sortFields, sortFields,
    map_sortByB stripEntry fieldLe_stripEntry l]

mutual

/-- Double canonicalization is canonicalization. -/
theorem canon_canon : ∀ v : Json, canonicalize (canonicalize v) = canonicalize v
  | .null => rfl
  | .bool _ => rfl
  | .num _ => rfl
  | .str _ => rfl
  | .arr xs => congrArg Json.arr (canonArr_canonArr xs)
  | .obj fields => by
      show Json.obj (sortFields (canonFields (sortFields (canonFields fields))))
        = Json.obj (sortFields (canonFields fields))
      rw [canonFields_sortFields_comm, sortFields_idem, canonFields_canonFields fields]

theorem canonArr_canonArr : ∀ xs : List Json, canonArr (canonArr xs) = canonArr xs
  | [] => rfl
  | x :: xs => by
      show canonicalize (canonicalize x) :: canonArr (canonArr xs)
        = canonicalize x :: canonArr xs
      rw [canon_canon x, canonArr_canonArr xs]

theorem canonFields_canonFields : ∀ fs : List (String × Json),
    canonFields (canonFields fs) = canonFields fs
  | [] => rfl
  | (k, v) :: rest => by
      show (k, canonicalize (canonicalize v)) :: canonFields (canonFields rest)
        = (k, canonicalize v) :: canonFields rest
      rw [canon_canon v, canonFields_canonFields rest]

end

mutual

/-- No `content` string in the value grows a fresh leading timestamp after
one strip: stripping twice equals stripping once at every content string.
This fails exactly on doubled leading timestamps. -/
def stripStable : Json → Bool
  | .obj fields => stripStableFields fields
  | .arr xs => stripStableArr xs
  | _ => true

def stripStableArr : List Json → Bool
  | [] => true
  | x :: xs => stripStable x && stripStableArr xs

def stripStableFields : List (String × Json) → Bool
  | [] => true
  | (k, v) :: rest =>
      (if k = "content" then
        match v with
        | .str s => stripTsStr (stripTsStr s) == stripTsStr s
        | other => stripStable other
      else stripStable v) && stripStableFields rest

end

/-- Entry part of `stripStableFields`. -/
def stripStableEntry (kv : String × Json) : Bool :=
  if kv.1 = "content" then
    match kv.2 with
    | .str s => stripTsStr (stripTsStr s) == stripTsStr s
    | other => stripStable other
  else stripStable kv.2

theorem stripStableFields_cons (kv : String × Json) (rest : List (String × Json)) :
    stripStableFields (kv :: rest) = (stripStableEntry kv && stripStableFields rest) := by
  cases kv with
  | mk k v =>
    by_cases hk : k = "content"
    · cases v <;> simp [stripStableFields, stripStableEntry, hk]
    · cases v <;> simp [stripStableFields, stripStableEntry, hk]

mutual

theorem strip_strip : ∀ v : Json, stripStable v = true →
    stripTimestamps (stripTimestamps v) = stripTimestamps v
  | .null, _ => rfl
  | .bool _, _ => rfl
  | .num _, _ => rfl
  | .str _, _ => rfl
  | .arr xs, h => congrArg Json.arr (stripArr_stripArr xs h)
  | .obj fields, h => congrArg Json.obj (stripFields_stripFields fields h)

theorem stripArr_stripArr : ∀ xs : List Json, stripStableArr xs = true →
    stripArr (stripArr xs) = stripArr xs
  | [], _ => rfl
  | x :: xs, h => by
      rw [show stripStableArr (x :: xs) = (stripStable x && stripStableArr xs)
        from rfl, Bool.and_eq_true] at h
      show stripTimestamps (stripTimestamps x) :: stripArr (stripArr xs)
        = stripTimestamps x :: stripArr xs
      rw [strip_strip x h.1, stripArr_stripArr xs h.2]

theorem stripFields_stripFields : ∀ fs : List (String × Json),
    stripStableFields fs = true → stripFields (stripFields fs) = stripFields fs
  | [], _ => rfl
  | (k, v) :: rest, h => by
      rw [stripStableFields_cons, Bool.and_eq_true] at h
      rw [stripFields_cons, stripFields_cons,
        stripFields_stripFields rest h.2, stripEntry_idem (k, v) h.1]

theorem stripEntry_idem : ∀ kv : String × Json, stripStableEntry kv = true →
    stripEntry (stripEntry kv) = stripEntry kv
  | (k, v), h => by
      by_cases hk : k = "content"
      · cases v with
        | str s =>
            have hs : stripTsStr (stripTsStr s) = stripTsStr s :=
              eq_of_beq (by simpa [stripStableEntry, hk] using h)
            simp [stripEntry, hk, hs]
        | null => simp [stripEntry, hk, stripTimestamps]
        | bool b => simp [stripEntry, hk, stripTimestamps]
        | num n => simp [stripEntry, hk, stripTimestamps]
        | arr xs =>
            have hv : stripStableArr xs = true := by
              simpa [stripStableEntry, hk, stripStable] using h
            subst hk
            have e1 : stripEntry ("content", Json.arr xs)
                = ("content", Json.arr (stripArr xs)) := by
              simp [stripEntry, stripTimestamps]
            have e2 : stripEntry ("content", Json.arr (stripArr xs))
                = ("content", Json.arr (stripArr (stripArr xs))) := by
              simp [stripEntry, stripTimestamps]
            rw [e1, e2, stripArr_stripArr xs hv]
        | obj fs =>
            have hv : stripStableFields fs = true := by
              simpa [stripStableEntry, hk, stripStable] using h
            subst hk
            have e1 : stripEntry ("content", Json.obj fs)
                = ("content", Json.obj (stripFields fs)) := by
              simp [stripEntry, stripTimestamps]
            have e2 : stripEntry ("content", Json.obj (stripFields fs))
                = ("content", Json.obj (stripFields (stripFields fs))) := by
              simp [stripEntry, stripTimestamps]
            rw [e1, e2, stripFields_stripFields fs hv]
      · have hv : stripStable v = true := by simpa [stripStableEntry, hk] using h
        simp only [stripEntry, hk, if_neg hk]
        simp [strip_strip v hv]
        intro hcon
        exact absurd hcon hk

end

mutual

theorem strip_canon : ∀ v : Json,
    stripTimestamps (canonicalize v) = canonicalize (stripTimestamps v)
  | .null => rfl
  | .bool _ => rfl
  | .num _ => rfl
  | .str _ => rfl
  | .arr xs => by
      show Json.arr (stripArr (canonArr xs)) = Json.arr (canonArr (stripArr xs))
      rw [stripArr_canonArr xs]
  | .obj fields => by
      show Json.obj (stripFields (sortFields (canonFields fields)))
        = Json.obj (sortFields (canonFields (stripFields fields)))
      rw [stripFields_sortFields_comm, stripFields_canonFields fields]

theorem stripArr_canonArr : ∀ xs : List Json,
    stripArr (canonArr xs) = canonArr (stripArr xs)
  | [] => rfl
  | x :: xs => by
      show stripTimestamps (canonicalize x) :: stripArr (canonArr xs)
        = canonicalize (stripTimestamps x) :: canonArr (stripArr xs)
      rw [strip_canon x, stripArr_canonArr xs]

theorem stripFields_canonFields : ∀ fs : List (String × Json),
    stripFields (canonFields fs) = canonFields (stripFields fs)
  | [] => rfl
  | (k, v) :: rest => by
      have hl : canonFields ((k, v) :: rest)
          = (k, canonicalize v) :: canonFields rest := rfl
      have hr : canonFields (stripEntry (k, v) :: stripFields rest)
          = canonEntry (stripEntry (k, v)) :: canonFields (stripFields rest) := by
        rw [canonFields_eq_map, List.map_cons, ← canonFields_eq_map]
      rw [hl, stripFields_cons, stripFields_cons, hr,
        stripFields_canonFields rest, stripCanonEntry k v]

theorem stripCanonEntry : ∀ (k : String) (v : Json),
    stripEntry (k, canonicalize v) = canonEntry (stripEntry (k, v))
  | k, v => by
      by_cases hk : k = "content"
      · subst hk
        cases v with
        | str s => simp [canonEntry, stripEntry, canonicalize]
        | null => rfl
        | bool b => rfl
        | num n => rfl
        | arr xs =>
            have e1 : stripEntry ("content", canonicalize (Json.arr xs))
                = ("content", Json.arr (stripArr (canonArr xs))) := by
              simp [stripEntry, canonicalize, stripTimestamps]
            have e2 : canonEntry (stripEntry ("content", Json.arr xs))
                = ("content", Json.arr (canonArr (stripArr xs))) := by
              simp [canonEntry, stripEntry, canonicalize, stripTimestamps]
            rw [e1, e2, stripArr_canonArr xs]
        | obj fs =>
            have e1 : stripEntry ("content", canonicalize (Json.obj fs))
                = ("content", Json.obj (stripFields (sortFields (canonFields fs)))) := by
              simp [stripEntry, canonicalize, stripTimestamps]
            have e2 : canonEntry (stripEntry ("content", Json.obj fs))
                = ("content", Json.obj (sortFields (canonFields (stripFields fs)))) := by
              simp [canonEntry, stripEntry, canonicalize, stripTimestamps]
            rw [e1, e2, stripFields_sortFields_comm, stripFields_canonFields fs]
      · have e1 : stripEntry (k, canonicalize v)
            = (k, stripTimestamps (canonicalize v)) := by
          simp [stripEntry, hk]
        have e2 : canonEntry (stripEntry (k, v))
            = (k, canonicalize (stripTimestamps v)) := by
          simp [canonEntry, stripEntry, hk]
        rw [e1, e2, strip_canon v]

end

/-- The stability condition on a request body: trivial for non-JSON bodies. -/
def stripStableBody : RawBody → Bool
  | .json v => stripStable v
  | .raw _ => true

theorem canonBody_idem (b : RawBody) (h : stripStableBody b = true) :
    canonBody (canonBody b) = canonBody b := by
  cases b with
  | raw s => rfl
  | json v =>
      show RawBody.json (canonicalize (stripTimestamps (canonicalize (stripTimestamps v))))
        = RawBody.json (canonicalize (stripTimestamps v))
      rw [strip_canon (stripTimestamps v), canon_canon, strip_strip v h]

/-- Claim C5 (amended): the dedup-key canonicalization is idempotent —
`hash(canon(x)) = hash(canon(canon(x)))`, where `dedupHash = hash ∘ canon` —
for every body that parses to JSON in which no `content` string begins with
two consecutive timestamp prefixes (stripping once must leave no fresh
leading timestamp), and trivially for bodies that do not parse.  The
doubled-timestamp case is the only failure: `String.replace` with the
non-global timestamp regex removes a single leading timestamp. -/
theorem dedupHash_canon_idempotent (b : RawBody) (h : stripStableBody b = true) :
    dedupHash b = dedupHash (canonBody b) := by
  show sha16 (serializeBody (canonBody b)) = sha16 (serializeBody (canonBody (canonBody b)))
  rw [canonBody_idem b h]

/-- Witness for the amended claim C5: a body with unsorted keys and a single
leading timestamp in its `content` is stable, and its hash is invariant
under a second canonicalization. -/
theorem dedupHash_canon_idempotent_witness :
    stripStableBody (.json (.obj [("b", .num 1),
      ("content", .str "[Mon 2024-01-01 10:00 UTC] hi"), ("a", .str "x")])) = true ∧
    dedupHash (.json (.obj [("b", .num 1),
      ("content", .str "[Mon 2024-01-01 10:00 UTC] hi"), ("a", .str "x")]))
      = dedupHash (canonBody (.json (.obj [("b", .num 1),
        ("content", .str "[Mon 2024-01-01 10:00 UTC] hi"), ("a", .str "x")]))) :=
  ⟨by decide,
    dedupHash_canon_idempotent (.json (.obj [("b", .num 1),
      ("content", .str "[Mon 2024-01-01 10:00 UTC] hi"), ("a", .str "x")])) (by decide)⟩

/-! ## src/response-cache.ts : the response cache

State-machine embedding of `ResponseCache`: the entry map, the expiration
heap (a sorted array in the source; modelled with the same stable sort), and
the hit/miss/eviction counters.  Each operation carries the current time. -/

/-- `CachedLLMResponse`. -/
structure CachedLLMResponse where
  body : String
  status : Nat
  headers : List (String × String)
  model : String
  cachedAt : ℤ
  expiresAt : ℤ
deriving DecidableEq, Repr

/-- `ResponseCacheConfig` with the defaults filled in
(`maxSize` 200, `defaultTTL` 600 s, `maxItemSize` 1 MiB, `enabled`). -/
structure ResponseCacheConfig where
  maxSize : ℤ
  defaultTTL : ℤ
  maxItemSize : Nat
  enabled : Bool

/-- The response passed to `set` (before stamping times). -/
structure SetResponse where
  body : String
  status : Nat
  headers : List (String × String)
  model : String
deriving DecidableEq, Repr

structure ResponseCacheState where
  cache : List (String × CachedLLMResponse)
  expirationHeap : List (ℤ × String)
  hits : Nat
  misses : Nat
  evictions : Nat
deriving DecidableEq, Repr

def emptyCacheState : ResponseCacheState := ⟨[], [], 0, 0, 0⟩

/-- `Map.set`: overwrite in place or append. -/
def mapSet (l : List (String × CachedLLMResponse)) (k : String)
    (v : CachedLLMResponse) : List (String × CachedLLMResponse) :=
  if l.any (fun kv => kv.1 == k) then
    l.map (fun kv => if kv.1 == k then (k, v) else kv)
  else l ++ [(k, v)]

/-- `Map.delete`. -/
def eraseKey (l : List (String × CachedLLMResponse)) (k : String) :
    List (String × CachedLLMResponse) :=
  l.filter (fun kv => !(kv.1 == k))

/-- The heap comparator `(a, b) => a.expiresAt - b.expiresAt`. -/
def heapLe (a b : ℤ × String) : Bool := decide (a.1 ≤ b.1)

/-- First `evict` pass: drop stale heap entries, evict expired ones, stop at
the first live unexpired entry. -/
def evictExpired (now : ℤ) : List (ℤ × String) → List (String × CachedLLMResponse)
    → Nat → List (ℤ × String) × List (String × CachedLLMResponse) × Nat
  | [], c, ev => ([], c, ev)
  | (e, k) :: rest, c, ev =>
      match c.lookup k with
      | none => evictExpired now rest c ev
      | some ent =>
          if ent.expiresAt ≠ e then evictExpired now rest c ev
          else if e ≤ now then evictExpired now rest (eraseKey c k) (ev + 1)
          else ((e, k) :: rest, c, ev)

/-- Second `evict` pass: while still at capacity, drop the earliest-expiring
keys. -/
def evictCap (maxSize : ℤ) : List (ℤ × String) → List (String × CachedLLMResponse)
    → Nat → List (ℤ × String) × List (String × CachedLLMResponse) × Nat
  | [], c, ev => ([], c, ev)
  | (e, k) :: rest, c, ev =>
      if maxSize ≤ (c.length : ℤ) then
        match c.lookup k with
        | some _ => evictCap maxSize rest (eraseKey c k) (ev + 1)
        | none => evictCap maxSize rest c ev
      else ((e, k) :: rest, c, ev)

/-- `ResponseCache.evict`. -/
def cacheEvict (cfg : ResponseCacheConfig) (s : ResponseCacheState) (now : ℤ) :
    ResponseCacheState :=
  let sorted := sortByB heapLe s.expirationHeap
  let r1 := evictExpired now sorted s.cache s.evictions
  let r2 := evictCap cfg.maxSize r1.1 r1.2.1 r1.2.2
  { s with expirationHeap := r2.1, cache := r2.2.1, evictions := r2.2.2 }

/-- `ResponseCache.set`: refuse when disabled, when the body exceeds
`maxItemSize`, or when `status ≥ 400`; evict at capacity; stamp and insert. -/
def cacheSet (cfg : ResponseCacheConfig) (s : ResponseCacheState) (key : String)
    (resp : SetResponse) (ttlSeconds : Option ℤ) (now : ℤ) : ResponseCacheState :=
  if ¬cfg.enabled ∨ cfg.maxSize ≤ 0 then s
  else if cfg.maxItemSize < resp.body.length then s
  else if 400 ≤ resp.status then s
  else
    let s1 := if cfg.maxSize ≤ (s.cache.length : ℤ) then cacheEvict cfg s now else s
    let expiresAt := now + (ttlSeconds.getD cfg.defaultTTL) * 1000
    let entry : CachedLLMResponse :=
      ⟨resp.body, resp.status, resp.headers, resp.model, now, expiresAt⟩
    { s1 with
      cache := mapSet s1.cache key entry
      expirationHeap := s1.expirationHeap ++ [(expiresAt, key)] }

/-- `ResponseCache.get`: return a live entry, count a hit; drop an expired
entry, count a miss. -/
def cacheGet (s : ResponseCacheState) (key : String) (now : ℤ) :
    ResponseCacheState × Option CachedLLMResponse :=
  match s.cache.lookup key with
  | none => ({ s with misses := s.misses + 1 }, none)
  | some entry =>
      if entry.expiresAt < now then
        ({ s with
          cache := eraseKey s.cache key
          misses := s.misses + 1 }, none)
      else ({ s with hits := s.hits + 1 }, some entry)

/-- `ResponseCache.clear`. -/
def cacheClear (s : ResponseCacheState) : ResponseCacheState :=
  { s with cache := [], expirationHeap := [] }

/-- `parsed.cache === false` at top level. -/
def jsonFieldIsFalse (fields : List (String × Json)) (key : String) : Bool :=
  match fields.lookup key with
  | some (Json.bool b) => !b
  | _ => false

/-- `parsed.no_cache === true` at top level. -/
def jsonFieldIsTrue (fields : List (String × Json)) (key : String) : Bool :=
  match fields.lookup key with
  | some (Json.bool b) => b
  | _ => false

/-- `ResponseCache.shouldCache`: false when disabled, when the
`cache-control` request header contains `no-cache`, or when the JSON body
carries `cache:false` or `no_cache:true` at top level. -/
def shouldCache (cfg : ResponseCacheConfig) (body : RawBody)
    (headers : Option (List (String × String))) : Bool :=
  if ¬cfg.enabled then false
  else if (match headers with
    | some hs =>
        match hs.lookup "cache-control" with
        | some v => containsSubstr v "no-cache"
        | none => false
    | none => false) then false
  else
    match body with
    | .json (.obj fields) =>
        if jsonFieldIsFalse fields "cache" || jsonFieldIsTrue fields "no_cache" then
          false
        else true
    | _ => true

/-- One cache operation (`set`/`get`/`clear`), with its wall-clock time. -/
inductive CacheOp where
  | set (key : String) (resp : SetResponse) (ttlSeconds : Option ℤ) (now : ℤ)
  | get (key : String) (now : ℤ)
  | clear
deriving DecidableEq, Repr

def cacheStep (cfg : ResponseCacheConfig) (s : ResponseCacheState) :
    CacheOp → ResponseCacheState × Option CachedLLMResponse
  | .set key resp ttl now => (cacheSet cfg s key resp ttl now, none)
  | .get key now => cacheGet s key now
  | .clear => (cacheClear s, none)

/-- Run a sequence of operations, collecting each `get` outcome. -/
def cacheRun (cfg : ResponseCacheConfig) :
    List CacheOp → ResponseCacheState → ResponseCacheState × List (Option CachedLLMResponse)
  | [], s => (s, [])
  | op :: ops, s =>
      let r := cacheStep cfg s op
      let rest := cacheRun cfg ops r.1
      (rest.1, r.2 :: rest.2)

theorem lookup_mem_snd {β : Type _} {l : List (String × β)} {k : String} {v : β}
    (h : l.lookup k = some v) : v ∈ l.map Prod.snd := by
  induction l with
  | nil => simp [List.lookup] at h
  | cons kv rest ih =>
    obtain ⟨a, b⟩ := kv
    rw [List.lookup] at h
    rw [List.map_cons]
    cases hk : (k == a) with
    | true =>
      rw [hk] at h
      injection h with h
      rw [← h]
      exact List.mem_cons_self _ _
    | false =>
      rw [hk] at h
      exact List.mem_cons_of_mem _ (ih h)

/-- Every stored entry is a success smaller than the item limit. -/
def cacheInv (cfg : ResponseCacheConfig) (s : ResponseCacheState) : Prop :=
  ∀ e ∈ s.cache.map Prod.snd, e.status < 400 ∧ e.body.length ≤ cfg.maxItemSize

theorem mem_snd_eraseKey {l : List (String × CachedLLMResponse)} {k : String}
    {e : CachedLLMResponse} (h : e ∈ (eraseKey l k).map Prod.snd) :
    e ∈ l.map Prod.snd := by
  rcases List.mem_map.mp h with ⟨kv, hkv, rfl⟩
  exact List.mem_map.mpr ⟨kv, List.mem_of_mem_filter hkv, rfl⟩

theorem evictExpired_subset (now : ℤ) :
    ∀ (h : List (ℤ × String)) (c : List (String × CachedLLMResponse)) (ev : Nat),
      ∀ e ∈ ((evictExpired now h c ev).2.1).map Prod.snd, e ∈ c.map Prod.snd
  | [], c, ev => fun e he => he
  | (x, k) :: rest, c, ev => by
      intro e he
      rw [evictExpired] at he
      cases hl : c.lookup k with
      | none =>
        rw [hl] at he
        exact evictExpired_subset now rest c ev e he
      | some ent =>
        rw [hl] at he
        replace he : e ∈ ((if ent.expiresAt ≠ x then evictExpired now rest c ev
            else if x ≤ now then evictExpired now rest (eraseKey c k) (ev + 1)
            else ((x, k) :: rest, c, ev)).2.1).map Prod.snd := he
        by_cases hex : ent.expiresAt ≠ x
        · rw [if_pos hex] at he
          exact evictExpired_subset now rest c ev e he
        · rw [if_neg hex] at he
          by_cases hnow : x ≤ now
          · rw [if_pos hnow] at he
            exact mem_snd_eraseKey (evictExpired_subset now rest _ _ e he)
          · rw [if_neg hnow] at he
            exact he

theorem evictCap_subset (maxSize : ℤ) :
    ∀ (h : List (ℤ × String)) (c : List (String × CachedLLMResponse)) (ev : Nat),
      ∀ e ∈ ((evictCap maxSize h c ev).2.1).map Prod.snd, e ∈ c.map Prod.snd
  | [], c, ev => fun e he => he
  | (x, k) :: rest, c, ev => by
      intro e he
      rw [evictCap] at he
      by_cases hsz : maxSize ≤ (c.length : ℤ)
      · rw [if_pos hsz] at he
        cases hl : c.lookup k with
        | none =>
          rw [hl] at he
          exact evictCap_subset maxSize rest c ev e he
        | some ent =>
          rw [hl] at he
          exact mem_snd_eraseKey (evictCap_subset maxSize rest _ _ e he)
      · rw [if_neg hsz] at he
        exact he

theorem cacheEvict_inv {cfg : ResponseCacheConfig} {s : ResponseCacheState} {now : ℤ}
    (h : cacheInv cfg s) : cacheInv cfg (cacheEvict cfg s now) := by
  intro e he
  exact h e (evictExpired_subset now _ _ _ e (evictCap_subset cfg.maxSize _ _ _ e he))

theorem mapSet_mem {l : List (String × CachedLLMResponse)} {k : String}
    {v e : CachedLLMResponse} (h : e ∈ (mapSet l k v).map Prod.snd) :
    e = v ∨ e ∈ l.map Prod.snd := by
  unfold mapSet at h
  by_cases hany : l.any (fun kv => kv.1 == k)
  · rw [if_pos hany] at h
    rcases List.mem_map.mp h with ⟨kv, hkv, rfl⟩
    rcases List.mem_map.mp hkv with ⟨kv0, hkv0, rfl⟩
    by_cases hk : kv0.1 == k
    · rw [if_pos hk]
      exact Or.inl rfl
    · rw [if_neg hk]
      exact Or.inr (List.mem_map.mpr ⟨kv0, hkv0, rfl⟩)
  · rw [if_neg hany, List.map_append] at h
    rcases List.mem_append.mp h with h1 | h2
    · exact Or.inr h1
    · rcases List.mem_singleton.mp h2 with rfl
      exact Or.inl rfl

theorem cacheSet_inv {cfg : ResponseCacheConfig} {s : ResponseCacheState}
    {key : String} {resp : SetResponse} {ttl : Option ℤ} {now : ℤ}
    (h : cacheInv cfg s) : cacheInv cfg (cacheSet cfg s key resp ttl now) := by
  unfold cacheSet
  by_cases h1 : ¬cfg.enabled ∨ cfg.maxSize ≤ 0
  · rw [if_pos h1]
    exact h
  · rw [if_neg h1]
    by_cases h2 : cfg.maxItemSize < resp.body.length
    · rw [if_pos h2]
      exact h
    · rw [if_neg h2]
      by_cases h3 : 400 ≤ resp.status
      · rw [if_pos h3]
        exact h
      · rw [if_neg h3]
        intro e he
        have hs1 : cacheInv cfg
            (if cfg.maxSize ≤ (s.cache.length : ℤ) then cacheEvict cfg s now else s) := by
          by_cases hc : cfg.maxSize ≤ (s.cache.length : ℤ)
          · rw [if_pos hc]
            exact cacheEvict_inv h
          · rw [if_neg hc]
            exact h
        rcases mapSet_mem he with rfl | hmem
        · refine ⟨?_, ?_⟩
          · show resp.status < 400
            omega
          · show resp.body.length ≤ cfg.maxItemSize
            omega
        · exact hs1 e hmem

theorem cacheGet_sound {s : ResponseCacheState} {key : String} {now : ℤ}
    {e : CachedLLMResponse} (cfg : ResponseCacheConfig) (hinv : cacheInv cfg s)
    (h : (cacheGet s key now).2 = some e) :
    e.status < 400 ∧ e.body.length ≤ cfg.maxItemSize := by
  unfold cacheGet at h
  cases hl : s.cache.lookup key with
  | none =>
    rw [hl] at h
    simp at h
  | some ent =>
    rw [hl] at h
    replace h : (if ent.expiresAt < now then
        ({ s with
          cache := eraseKey s.cache key
          misses := s.misses + 1 }, (none : Option CachedLLMResponse))
      else ({ s with hits := s.hits + 1 }, some ent)).2 = some e := h
    by_cases hex : ent.expiresAt < now
    · rw [if_pos hex] at h
      simp at h
    · rw [if_neg hex] at h
      injection h with h
      rw [← h]
      exact hinv ent (lookup_mem_snd hl)

theorem cacheGet_inv {cfg : ResponseCacheConfig} {s : ResponseCacheState}
    {key : String} {now : ℤ} (h : cacheInv cfg s) :
    cacheInv cfg (cacheGet s key now).1 := by
  unfold cacheGet
  cases hl : s.cache.lookup key with
  | none => exact h
  | some ent =>
    show cacheInv cfg (if ent.expiresAt < now then
        ({ s with
          cache := eraseKey s.cache key
          misses := s.misses + 1 }, (none : Option CachedLLMResponse))
      else ({ s with hits := s.hits + 1 }, some ent)).1
    by_cases hex : ent.expiresAt < now
    · rw [if_pos hex]
      intro e he
      exact h e (mem_snd_eraseKey he)
    · rw [if_neg hex]
      exact h

theorem cacheRun_sound (cfg : ResponseCacheConfig) :
    ∀ (ops : List CacheOp) (s : ResponseCacheState), cacheInv cfg s →
      ∀ o ∈ (cacheRun cfg ops s).2, ∀ e, o = some e →
        e.status < 400 ∧ e.body.length ≤ cfg.maxItemSize
  | [], s, hinv => by
      intro o ho
      simp [cacheRun] at ho
  | op :: ops, s, hinv => by
      intro o ho e hoe
      rw [cacheRun] at ho
      rcases List.mem_cons.mp ho with rfl | ho2
      · cases op with
        | set key resp ttl now => simp [cacheStep] at hoe
        | clear => simp [cacheStep] at hoe
        | get key now =>
            exact cacheGet_sound cfg hinv hoe
      · have hinv2 : cacheInv cfg (cacheStep cfg s op).1 := by
          cases op with
          | set key resp ttl now => exact cacheSet_inv hinv
          | get key now => exact cacheGet_inv hinv
          | clear => intro e he; simp [cacheStep, cacheClear] at he
        exact cacheRun_sound cfg ops _ hinv2 o ho2 e hoe

/-- Claim C7: for every sequence of cache operations run from the empty
state, every entry the response cache returns has status < 400 and a body no
longer than `maxItemSize` (set refuses to store anything else); and
`shouldCache` is false whenever the request's `cache-control` header value
contains `no-cache`, or the JSON body carries `cache:false` or
`no_cache:true` at top level, so such requests are never served from the
cache. -/
theorem responseCache_never_serves_bad (cfg : ResponseCacheConfig)
    (ops : List CacheOp) :
    (∀ o ∈ (cacheRun cfg ops emptyCacheState).2, ∀ e, o = some e →
        e.status < 400 ∧ e.body.length ≤ cfg.maxItemSize) ∧
    (∀ (body : RawBody) (hs : List (String × String)) (v : String),
        hs.lookup "cache-control" = some v →
        containsSubstr v "no-cache" = true →
        shouldCache cfg body (some hs) = false) ∧
    (∀ (fields : List (String × Json)) (headers : Option (List (String × String))),
        jsonFieldIsFalse fields "cache" = true ∨
          jsonFieldIsTrue fields "no_cache" = true →
        shouldCache cfg (.json (.obj fields)) headers = false) := by
  refine ⟨?_, ?_, ?_⟩
  · have hinv : cacheInv cfg emptyCacheState := by
      intro e he
      simp [emptyCacheState] at he
    exact cacheRun_sound cfg ops emptyCacheState hinv
  · intro body hs v hlk hcontains
    simp [shouldCache, hlk, hcontains]
  · intro fields headers hflag
    rcases hflag with hf | hf <;> simp [shouldCache, hf]

theorem responseCache_never_serves_bad_witness :
    shouldCache ⟨200, 600, 1048576, true⟩ (RawBody.raw "x")
      (some [("cache-control", "no-cache")]) = false :=
  (responseCache_never_serves_bad ⟨200, 600, 1048576, true⟩ []).2.1
    (RawBody.raw "x") [("cache-control", "no-cache")] "no-cache"
    (by decide) (by decide)
